import Mathlib

/-!
Verification development for the Token Tactics game engine (tt_game.py).

The engine is embedded shallowly:

* Python dictionaries become association lists from keys to values.  The
  source always iterates dictionaries in sorted key order (methods
  _iter_player_items, iter_token_items, _iter_jury_items), which is modelled
  by sorting the key list with a code-point lexicographic order, the same
  order Python uses on strings.
* The process-global random module becomes an explicit generator state: a
  64-bit linear congruential generator driving a Fisher-Yates shuffle,
  stored in the game record and re-seeded exactly where the source calls
  random.seed.  Every theorem below depends only on the generator being a
  deterministic function of the seed, never on the concrete permutation.
* A Python exception becomes an error value returned next to the state as it
  was at the moment of the raise; mutations performed before the raise stay
  visible, exactly as in the source.  The helper get_default_board_size
  computes with floating point in the source (a 0.4 density factor and a
  float square root); it is modelled in exact arithmetic, and no claim
  depends on the concrete value, only on its determinism.
* Result message strings are abbreviated: they are display-only in the
  source and no claim depends on their exact text.
-/

deriving instance DecidableEq for Except

-- ===== Errors (the exception classes of tt_game.py) =====

inductive GameErr where
  | TokenError (msg : String)
  | PlayerError (msg : String)
  | APError (msg : String)
  | RangeError (msg : String)
  | InvalidMoveError (msg : String)
  | BoardSizeError (msg : String)
  | ValueError (msg : String)
  | KeyError (msg : String)
  | TypeError (msg : String)
deriving DecidableEq, Repr

-- ===== Dictionary model =====

def dict_get {α : Type} : List (String × α) → String → Option α
  | [], _ => none
  | p :: d, k => if p.1 == k then some p.2 else dict_get d k

def dict_contains {α : Type} : List (String × α) → String → Bool
  | [], _ => false
  | p :: d, k => (p.1 == k) || dict_contains d k

def dict_set {α : Type} (d : List (String × α)) (k : String) (v : α) :
    List (String × α) :=
  if dict_contains d k then d.map (fun p => if p.1 == k then (k, v) else p)
  else d ++ [(k, v)]

def dict_del {α : Type} (d : List (String × α)) (k : String) : List (String × α) :=
  d.filter (fun p => p.1 != k)

def dict_modify {α : Type} (d : List (String × α)) (k : String) (f : α → α) :
    List (String × α) :=
  d.map (fun p => if p.1 == k then (p.1, f p.2) else p)

-- Code-point lexicographic order on strings (Python's string order).
def char_list_le : List Char → List Char → Bool
  | [], _ => true
  | _ :: _, [] => false
  | a :: as, b :: bs =>
    if a.toNat < b.toNat then true
    else if b.toNat < a.toNat then false
    else char_list_le as bs

def str_le (a b : String) : Bool := char_list_le a.data b.data

def sort_strings (l : List String) : List String :=
  List.insertionSort (fun a b => str_le a b = true) l

-- ===== Random generator model =====

def lcg_next (s : Nat) : Nat :=
  (6364136223846793005 * s + 1442695040888963407) % 18446744073709551616

/-- Model of random.seed: maps the integer seed injectively into the
generator state. -/
def seed_rng (s : Int) : Nat :=
  lcg_next (2 * s.natAbs + (if s < 0 then 1 else 0))

def pick_at {α : Type} : List α → Nat → Option (α × List α)
  | [], _ => none
  | x :: xs, 0 => some (x, xs)
  | x :: xs, n + 1 => (pick_at xs n).map (fun p => (p.1, x :: p.2))

def shuffle_go {α : Type} : Nat → List α → Nat → List α × Nat
  | 0, l, s => (l, s)
  | n + 1, l, s =>
    let s1 := lcg_next s
    match pick_at l (s1 % (n + 1)) with
    | none => (l, s1)
    | some (x, rest) =>
      let r := shuffle_go n rest s1
      (x :: r.1, r.2)

/-- Model of random.shuffle: a Fisher-Yates shuffle driven by the generator
state, returning the permuted list and the advanced state. -/
def shuffle_list {α : Type} (l : List α) (s : Nat) : List α × Nat :=
  shuffle_go l.length l s

-- ===== Data model =====

/-- One entry of the tokens dictionary: owner, position, AP, life, life_cap,
range, as initialized by init_tokens and add_token_command. -/
structure Token where
  owner : String
  position : Option (Int × Int)
  AP : Int
  life : Int
  life_cap : Int
  range : Int
deriving DecidableEq, Repr

/-- The Game object: every attribute set in Game.__init__. -/
structure Game where
  players : List (String × List String)
  tokens : List (String × Token)
  jury : List (String × String)
  board_size : Option Nat
  life_cap : Int
  action_range : Int
  minimum_board_size : Nat
  heal_self_cost : Int
  gift_heart_cost : Int
  upgrade_cost : Int
  capture_cost : Int
  random_seed : Option Int
  priority : List String
  turn_counter : Option Int
  board_size_locked : Bool
  rng : Nat
deriving DecidableEq, Repr

/-- Result of running a command: the state as left by the call (on an error,
the state at the moment of the raise) together with the outcome. -/
abbrev CmdRes := Game × Except GameErr String

-- ===== Sorted iteration (iter_token_items and friends) =====

def sorted_token_items (g : Game) : List (String × Token) :=
  (sort_strings (g.tokens.map (fun p => p.1))).filterMap
    (fun k => (dict_get g.tokens k).map (fun v => (k, v)))

-- ===== Getters =====

def get_life (g : Game) (token : String) : Int :=
  match dict_get g.tokens token with
  | some i => i.life
  | none => 0

def get_ap (g : Game) (token : String) : Int :=
  match dict_get g.tokens token with
  | some i => i.AP
  | none => 0

/-- get_owner; every call site has checked that the token exists, so the
KeyError branch of the source is represented by a default. -/
def get_owner (g : Game) (token : String) : String :=
  match dict_get g.tokens token with
  | some i => i.owner
  | none => ""

/-- is_player_eliminated: true iff the player has no living token.  The
source iterates tokens in sorted order; existence does not depend on the
order. -/
def is_player_eliminated (g : Game) (player : String) : Bool :=
  !(g.tokens.any (fun p => p.2.owner == player && p.2.life > 0))

/-- Integer square root (largest k with k * k at most n), written as a
bounded search so that it evaluates inside the kernel. -/
def nat_sqrt (n : Nat) : Nat :=
  ((List.range (n + 2)).findIdx (fun k => decide (n < k * k))) - 1

/-- get_default_board_size with k = 0.4 (see the header note on floats). -/
def get_default_board_size (g : Game) : Int :=
  let action_diameter := 2 * g.action_range + 1
  let token_area := action_diameter * action_diameter
  let total_token_area := token_area * (g.tokens.length : Int)
  let board_area := total_token_area * 2 / 5
  max ((nat_sqrt (Int.toNat board_area)) : Int) (g.minimum_board_size : Int)

-- ===== Board tiles (get_tile, used by move_command) =====

/-- A board tile: a token name, the range marker, or the blank marker.  In
the source tiles are strings; no claim involves a token whose one-character
name collides with the marker glyphs. -/
inductive Tile where
  | token (t : String)
  | range_tile
  | blank_tile
deriving DecidableEq, Repr

def find_range_tile : List (String × Token) → Int → Int → Except GameErr Bool
  | [], _, _ => Except.ok false
  | (_, info) :: rest, x, y =>
    if info.life > 0 then
      match info.position with
      | none => Except.error (GameErr.TypeError "NoneType position")
      | some tp =>
        let d : Int := (max (x - tp.1).natAbs (y - tp.2).natAbs : Nat)
        if 0 < d ∧ d ≤ info.range then Except.ok true
        else find_range_tile rest x y
    else find_range_tile rest x y

def get_tile (g : Game) (x y : Int) : Except GameErr Tile :=
  let items := sorted_token_items g
  match items.find? (fun p => p.2.position == some (x, y)) with
  | some p => Except.ok (Tile.token p.1)
  | none =>
    match find_range_tile items x y with
    | Except.error e => Except.error e
    | Except.ok true => Except.ok Tile.range_tile
    | Except.ok false => Except.ok Tile.blank_tile

-- ===== Setters and helper methods =====

def set_random_seed (g : Game) (seed : Option Int) : Game × String :=
  let (g1, msg) :=
    match seed with
    | none => (g, "Random seed cannot be None")
    | some s =>
      if g.random_seed == some s then (g, "Random seed was already set")
      else ({ g with random_seed := some s, rng := seed_rng s }, "Random seed set")
  let sorted := sort_strings (g1.players.map (fun p => p.1))
  let r := shuffle_list sorted g1.rng
  ({ g1 with priority := r.1, rng := r.2 }, msg)

def all_positions (size : Nat) : List (Int × Int) :=
  (List.range size).flatMap
    (fun i => (List.range size).map (fun j => (Int.ofNat i, Int.ofNat j)))

/-- The assignment loop of set_random_token_position: available.pop() takes
from the end of the shuffled list, modelled by reversing once and consuming
from the head.  Running out of positions mid-loop is Python's IndexError,
raised after the earlier tokens were already placed. -/
def assign_positions : Game → List (Int × Int) → List String → CmdRes
  | g, _, [] => (g, Except.ok "New token positions assigned")
  | g, [], _ :: _ => (g, Except.error (GameErr.TypeError "pop from empty list"))
  | g, p :: ps, t :: ts =>
    assign_positions
      { g with tokens := dict_modify g.tokens t (fun i => { i with position := some p }) }
      ps ts

def set_random_token_position (g : Game) (toks : List String) : CmdRes :=
  match g.board_size with
  | none => (g, Except.error (GameErr.TypeError "NoneType board size"))
  | some size =>
    let positions := all_positions size
    let existing := g.tokens.filterMap (fun p => p.2.position)
    let available := positions.filter (fun p => !(existing.contains p))
    if available.isEmpty then
      (g, Except.error (GameErr.BoardSizeError "Not enough space on board for new tokens"))
    else
      let r := shuffle_list available g.rng
      assign_positions { g with rng := r.2 } r.1.reverse toks

def default_token_for (g : Game) (pl : String) : Token :=
  { owner := pl, position := none, AP := 0, life := g.life_cap,
    life_cap := g.life_cap, range := g.action_range }

/-- The (token, owner) pairs init_tokens runs through: players in sorted
order, each player's token list in sorted order. -/
def init_key_owner_pairs (g : Game) : List (String × String) :=
  (sort_strings (g.players.map (fun p => p.1))).flatMap
    (fun pl => (sort_strings ((dict_get g.players pl).getD [])).map (fun tok => (tok, pl)))

def init_tokens (g : Game) : Game × Option GameErr :=
  let g1 := { g with turn_counter := some (0 : Int), tokens := [] }
  let g2 := { g1 with
    tokens := (init_key_owner_pairs g1).foldl
      (fun (d : List (String × Token)) (p : String × String) =>
        dict_set d p.1 (default_token_for g1 p.2)) [] }
  match g2.board_size with
  | none => (g2, none)
  | some _ =>
    match set_random_token_position g2 (sort_strings (g2.tokens.map (fun p => p.1))) with
    | (g3, Except.error e) => (g3, some e)
    | (g3, Except.ok _) => (g3, none)

def set_board_size_command (g : Game) (size? : Option Int) (lock_board_size : Bool) :
    CmdRes :=
  if g.board_size_locked then
    (g, Except.error (GameErr.BoardSizeError "Board size locked"))
  else
    let default_size := get_default_board_size g
    let size := size?.getD default_size
    if size * size ≤ (g.tokens.length : Int) ∨ size < (g.minimum_board_size : Int) then
      (g, Except.error (GameErr.BoardSizeError "Board too small!"))
    else
      -- the guard forces size at least 1, so the conversion to Nat is exact
      let g1 := { g with board_size := some size.toNat, board_size_locked := lock_board_size }
      -- random.seed(self.random_seed); a stored seed of None would draw on
      -- entropy in the source, unreachable when the game was constructed
      -- with an integer seed, and modelled as keeping the current state
      let g2 := { g1 with rng := match g1.random_seed with
                                  | some s => seed_rng s
                                  | none => g1.rng }
      match init_tokens g2 with
      | (g3, some e) => (g3, Except.error e)
      | (g3, none) => (g3, Except.ok "Board size set")

def force_board_size_set (g : Game) : Game × Option GameErr :=
  match g.board_size with
  | some _ => (g, none)
  | none =>
    match set_board_size_command g none false with
    | (g1, Except.error e) => (g1, some e)
    | (g1, Except.ok _) => (g1, none)

-- ===== Validation helpers =====

def check_tokens_exist (g : Game) (toks : List String) : Game × Option GameErr :=
  match force_board_size_set g with
  | (g1, some e) => (g1, some e)
  | (g1, none) =>
    match toks.find? (fun t => !(dict_contains g1.tokens t)) with
    | some t => (g1, some (GameErr.TokenError t))
    | none => (g1, none)

def check_has_ap (g : Game) (token : String) (cost : Int) : Option GameErr :=
  match dict_get g.tokens token with
  | none => some (GameErr.KeyError token)
  | some info =>
    if info.AP < cost then some (GameErr.APError (token ++ " has too little AP"))
    else none

def check_life_cap (g : Game) (token : String) (extra_hearts : Int) : Option GameErr :=
  match dict_get g.tokens token with
  | none => some (GameErr.KeyError token)
  | some info =>
    if info.life + extra_hearts > info.life_cap then
      some (GameErr.InvalidMoveError (token ++ " cannot receive any more hearts"))
    else if info.life + extra_hearts < 0 then
      some (GameErr.InvalidMoveError (token ++ " does not have enough hearts"))
    else none

/-- distance: Chebyshev distance between two tokens.  It re-checks token
existence (which can itself lazily size the board) and unpacks the two
positions, a TypeError when one of them is still None. -/
def distance (g : Game) (t1 t2 : String) : Game × Except GameErr Int :=
  match check_tokens_exist g [t1, t2] with
  | (g1, some e) => (g1, Except.error e)
  | (g1, none) =>
    match dict_get g1.tokens t1, dict_get g1.tokens t2 with
    | some i1, some i2 =>
      match i1.position, i2.position with
      | some p1, some p2 =>
        (g1, Except.ok ((max (p1.1 - p2.1).natAbs (p1.2 - p2.2).natAbs : Nat) : Int))
      | _, _ => (g1, Except.error (GameErr.TypeError "cannot unpack NoneType"))
    | _, _ => (g1, Except.error (GameErr.KeyError t1))

def check_range (g : Game) (t1 t2 : String) (dist : Option Int) : Game × Option GameErr :=
  match distance g t1 t2 with
  | (g1, Except.error e) => (g1, some e)
  | (g1, Except.ok d) =>
    match dict_get g1.tokens t1 with
    | none => (g1, some (GameErr.KeyError t1))
    | some i1 =>
      let r := match dist with | some dd => dd | none => i1.range
      if d > r then (g1, some (GameErr.RangeError (t2 ++ " is too far from " ++ t1)))
      else (g1, none)

def increase_life_cap (g : Game) (token : String) : Game :=
  { g with tokens := dict_modify g.tokens token (fun i => { i with life_cap := i.life_cap + 1 }) }

def increase_range (g : Game) (token : String) : Game :=
  { g with tokens := dict_modify g.tokens token (fun i => { i with range := i.range + 1 }) }

def increase_life (g : Game) (token : String) (amount : Int) : Game × Option GameErr :=
  match check_life_cap g token amount with
  | some e => (g, some e)
  | none =>
    ({ g with tokens := dict_modify g.tokens token (fun i => { i with life := i.life + amount }) },
     none)

def increase_ap (g : Game) (token : String) (amount : Int) : Game × Option GameErr :=
  if amount < 0 then (g, some (GameErr.ValueError "amount must be positive"))
  else
    ({ g with tokens := dict_modify g.tokens token (fun i => { i with AP := i.AP + amount }) },
     none)

def spend_ap (g : Game) (token : String) (amount : Int) : Game × Option GameErr :=
  if amount < 0 then (g, some (GameErr.ValueError "amount must be positive"))
  else
    match check_has_ap g token amount with
    | some e => (g, some e)
    | none =>
      ({ g with tokens := dict_modify g.tokens token (fun i => { i with AP := i.AP - amount }) },
       none)

def transfer_ap (g : Game) (t1 t2 : String) (amount : Int) : Game × Option GameErr :=
  match spend_ap g t1 amount with
  | (g1, some e) => (g1, some e)
  | (g1, none) => increase_ap g1 t2 amount

/-- update_priority: list.index raises ValueError when the player is absent;
otherwise the player moves to the end. -/
def update_priority (g : Game) (player : String) : Game × Option GameErr :=
  if g.priority.contains player then
    ({ g with priority := (g.priority.erase player) ++ [player] }, none)
  else (g, some (GameErr.ValueError "not in list"))

-- ===== Commands =====

def bump_living (t : Token) : Token :=
  if t.life ≥ 1 then { t with AP := t.AP + 1 } else t

def apply_jury_bonus : Game → List String → Game
  | g, [] => g
  | g, pl :: rest =>
    let g1 :=
      match dict_get g.jury pl with
      | none => g
      | some jt =>
        match dict_get g.tokens jt with
        | none => g
        | some info =>
          if info.life ≥ 1 then
            { g with tokens := dict_set g.tokens jt { info with AP := info.AP + 1 } }
          else g
    apply_jury_bonus g1 rest

/-- give_ap_to_all_command (next_turn): pointwise AP gain for living tokens
in sorted iteration order, then the jury bonus in sorted jury order. -/
def give_ap_to_all_command (g : Game) : CmdRes :=
  if g.tokens.isEmpty then (g, Except.error (GameErr.TokenError "No tokens on board."))
  else
    match force_board_size_set g with
    | (g1, some e) => (g1, Except.error e)
    | (g1, none) =>
      match g1.turn_counter with
      | none => (g1, Except.error (GameErr.TypeError "NoneType counter"))
      | some t =>
        let g2 := { g1 with turn_counter := some (t + 1) }
        let g3 := { g2 with tokens := g2.tokens.map (fun p => (p.1, bump_living p.2)) }
        let g4 := apply_jury_bonus g3 (sort_strings (g3.jury.map (fun p => p.1)))
        (g4, Except.ok "Gave AP to living tokens")

/-- The mutation phase of move_command (the code after the "Execute Move"
comment): reposition, spend 1 AP, update priority. -/
def move_execute (g : Game) (token : String) (x y : Int) : CmdRes :=
  let g2 := { g with tokens := dict_modify g.tokens token (fun i => { i with position := some (x, y) }) }
  match spend_ap g2 token 1 with
  | (g3, some e) => (g3, Except.error e)
  | (g3, none) =>
    match update_priority g3 (get_owner g3 token) with
    | (g4, some e) => (g4, Except.error e)
    | (g4, none) => (g4, Except.ok (token ++ " moved"))

def move_command (g : Game) (token : String) (dx dy : Int) : CmdRes :=
  match check_tokens_exist g [token] with
  | (g1, some e) => (g1, Except.error e)
  | (g1, none) =>
    match check_has_ap g1 token 1 with
    | some e => (g1, Except.error e)
    | none =>
      match dict_get g1.tokens token with
      | none => (g1, Except.error (GameErr.KeyError token))
      | some info =>
        match info.position with
        | none => (g1, Except.error (GameErr.TypeError "cannot unpack NoneType"))
        | some cp =>
          let x := cp.1 + dx
          let y := cp.2 + dy
          if info.life ≤ 0 then
            (g1, Except.error (GameErr.InvalidMoveError "Token has 0 HP and cannot move"))
          else
            match g1.board_size with
            | none => (g1, Except.error (GameErr.TypeError "NoneType board size"))
            | some size =>
              if ¬ (0 ≤ x ∧ x < (size : Int) ∧ 0 ≤ y ∧ y < (size : Int)) then
                (g1, Except.error (GameErr.InvalidMoveError "Target position is out of bounds"))
              else if (max (x - cp.1).natAbs (y - cp.2).natAbs) ≠ 1 then
                (g1, Except.error (GameErr.RangeError "Target position must be adjacent"))
              else
                match get_tile g1 x y with
                | Except.error e => (g1, Except.error e)
                | Except.ok tile =>
                  if (match tile with | Tile.token _ => true | _ => false) then
                    (g1, Except.error
                      (GameErr.InvalidMoveError "Target position is occupied by another token"))
                  else
                    move_execute g1 token x y

/-- The mutation phase of gift_command: spend from t1, grant to t2, update
priority. -/
def gift_execute (g : Game) (t1 t2 : String) (n_points : Int) : CmdRes :=
  match spend_ap g t1 n_points with
  | (g1, some e) => (g1, Except.error e)
  | (g1, none) =>
    match increase_ap g1 t2 n_points with
    | (g2, some e) => (g2, Except.error e)
    | (g2, none) =>
      match update_priority g2 (get_owner g2 t1) with
      | (g3, some e) => (g3, Except.error e)
      | (g3, none) => (g3, Except.ok (t1 ++ " gifted AP to " ++ t2))

def gift_command (g : Game) (t1 t2 : String) (n_points : Int) : CmdRes :=
  match check_tokens_exist g [t1, t2] with
  | (g1, some e) => (g1, Except.error e)
  | (g1, none) =>
    match check_has_ap g1 t1 n_points with
    | some e => (g1, Except.error e)
    | none =>
      match check_range g1 t1 t2 none with
      | (g2, some e) => (g2, Except.error e)
      | (g2, none) => gift_execute g2 t1 t2 n_points

/-- The mutation phase of shoot_command: spend 1 AP, decrement the target
life, update priority, then steal all the AP of a target that reached
exactly 0 life. -/
def shoot_execute (g : Game) (t1 t2 : String) : CmdRes :=
  match spend_ap g t1 1 with
  | (g1, some e) => (g1, Except.error e)
  | (g1, none) =>
    let g2 := { g1 with tokens := dict_modify g1.tokens t2 (fun i => { i with life := i.life - 1 }) }
    match update_priority g2 (get_owner g2 t1) with
    | (g3, some e) => (g3, Except.error e)
    | (g3, none) =>
      if get_life g3 t2 == 0 then
        match transfer_ap g3 t2 t1 (get_ap g3 t2) with
        | (g4, some e) => (g4, Except.error e)
        | (g4, none) => (g4, Except.ok (t1 ++ " shot at " ++ t2))
      else (g3, Except.ok (t1 ++ " shot at " ++ t2))

def shoot_command (g : Game) (t1 t2 : String) : CmdRes :=
  match check_tokens_exist g [t1, t2] with
  | (g1, some e) => (g1, Except.error e)
  | (g1, none) =>
    match check_has_ap g1 t1 1 with
    | some e => (g1, Except.error e)
    | none =>
      match check_range g1 t1 t2 none with
      | (g2, some e) => (g2, Except.error e)
      | (g2, none) => shoot_execute g2 t1 t2

/-- The mutation phase of heal_self_command: spend the heal cost, add one
life, update priority. -/
def heal_execute (g : Game) (token : String) : CmdRes :=
  match spend_ap g token g.heal_self_cost with
  | (g1, some e) => (g1, Except.error e)
  | (g1, none) =>
    let g2 := { g1 with tokens := dict_modify g1.tokens token (fun i => { i with life := i.life + 1 }) }
    match update_priority g2 (get_owner g2 token) with
    | (g3, some e) => (g3, Except.error e)
    | (g3, none) => (g3, Except.ok (token ++ " healed"))

def heal_self_command (g : Game) (token : String) : CmdRes :=
  match check_tokens_exist g [token] with
  | (g1, some e) => (g1, Except.error e)
  | (g1, none) =>
    match check_has_ap g1 token g1.heal_self_cost with
    | some e => (g1, Except.error e)
    | none =>
      match check_life_cap g1 token 1 with
      | some e => (g1, Except.error e)
      | none => heal_execute g1 token

/-- The mutation phase of upgrade_token_command: spend the upgrade cost,
then raise life_cap, life (checked against the already-raised cap) and
range, and update priority. -/
def upgrade_execute (g : Game) (token : String) : CmdRes :=
  match spend_ap g token g.upgrade_cost with
  | (g1, some e) => (g1, Except.error e)
  | (g1, none) =>
    let g2 := increase_life_cap g1 token
    match increase_life g2 token 1 with
    | (g3, some e) => (g3, Except.error e)
    | (g3, none) =>
      let g4 := increase_range g3 token
      match update_priority g4 (get_owner g4 token) with
      | (g5, some e) => (g5, Except.error e)
      | (g5, none) => (g5, Except.ok (token ++ " upgraded"))

def upgrade_token_command (g : Game) (token : String) : CmdRes :=
  match check_tokens_exist g [token] with
  | (g1, some e) => (g1, Except.error e)
  | (g1, none) =>
    match check_has_ap g1 token g1.upgrade_cost with
    | some e => (g1, Except.error e)
    | none => upgrade_execute g1 token

/-- The mutation phase of gift_heart_command: spend the cost, move one life
from t1 to t2, revive the target owner from the jury if present, update
priority. -/
def gift_heart_execute (g : Game) (t1 t2 : String) : CmdRes :=
  match spend_ap g t1 g.gift_heart_cost with
  | (g1, some e) => (g1, Except.error e)
  | (g1, none) =>
    let g2 := { g1 with tokens := dict_modify g1.tokens t1 (fun i => { i with life := i.life - 1 }) }
    let g3 := { g2 with tokens := dict_modify g2.tokens t2 (fun i => { i with life := i.life + 1 }) }
    let g4 :=
      if dict_contains g3.jury (get_owner g3 t2) then
        { g3 with jury := dict_del g3.jury (get_owner g3 t2) }
      else g3
    match update_priority g4 (get_owner g4 t1) with
    | (g5, some e) => (g5, Except.error e)
    | (g5, none) => (g5, Except.ok (t1 ++ " gifted a heart to " ++ t2))

def gift_heart_command (g : Game) (t1 t2 : String) : CmdRes :=
  match check_tokens_exist g [t1, t2] with
  | (g1, some e) => (g1, Except.error e)
  | (g1, none) =>
    match check_has_ap g1 t1 g1.gift_heart_cost with
    | some e => (g1, Except.error e)
    | none =>
      match check_range g1 t1 t2 (some 1) with
      | (g2, some e) => (g2, Except.error e)
      | (g2, none) =>
        match check_life_cap g2 t1 (-1) with
        | some e => (g2, Except.error e)
        | none =>
          match check_life_cap g2 t2 1 with
          | some e => (g2, Except.error e)
          | none => gift_heart_execute g2 t1 t2

/-- The mutation phase of capture_command: spend the cost, move t2 between
the two player token lists, reassign ownership, restore 1 life, enrol the
dispossessed owner into the jury when they end up eliminated and not yet
present, update priority. -/
def capture_execute (g : Game) (t1 t2 owner_1 owner_2 : String) : CmdRes :=
  match spend_ap g t1 g.capture_cost with
  | (g1, some e) => (g1, Except.error e)
  | (g1, none) =>
    match dict_get g1.players owner_2 with
    | none => (g1, Except.error (GameErr.KeyError owner_2))
    | some old_list =>
      let g2 :=
        if old_list.contains t2 then
          { g1 with players := dict_set g1.players owner_2 (old_list.erase t2) }
        else g1
      match dict_get g2.players owner_1 with
      | none => (g2, Except.error (GameErr.KeyError owner_1))
      | some new_list =>
        let g3 := { g2 with players := dict_set g2.players owner_1 (new_list ++ [t2]) }
        let g4 := { g3 with tokens := dict_modify g3.tokens t2 (fun i => { i with owner := owner_1 }) }
        let g5 := { g4 with tokens := dict_modify g4.tokens t2 (fun i => { i with life := 1 }) }
        let g6 :=
          if is_player_eliminated g5 owner_2 ∧ ¬ (dict_contains g5.jury owner_2) then
            { g5 with jury := dict_set g5.jury owner_2 t2 }
          else g5
        match update_priority g6 (get_owner g6 t1) with
        | (g7, some e) => (g7, Except.error e)
        | (g7, none) => (g7, Except.ok (t1 ++ " captured " ++ t2))

def capture_command (g : Game) (t1 t2 : String) : CmdRes :=
  match check_tokens_exist g [t1, t2] with
  | (g1, some e) => (g1, Except.error e)
  | (g1, none) =>
    match check_has_ap g1 t1 g1.capture_cost with
    | some e => (g1, Except.error e)
    | none =>
      match check_range g1 t1 t2 (some 1) with
      | (g2, some e) => (g2, Except.error e)
      | (g2, none) =>
        if get_owner g2 t1 == get_owner g2 t2 then
          (g2, Except.error (GameErr.InvalidMoveError "Cannot capture your own token"))
        else if get_life g2 t2 > 0 then
          (g2, Except.error
            (GameErr.InvalidMoveError "Cannot capture a token that still has life"))
        else
          capture_execute g2 t1 t2 (get_owner g2 t1) (get_owner g2 t2)

/-- The mutation phase of jury_vote_command: record the vote, update
priority. -/
def vote_execute (g : Game) (player tok : String) : CmdRes :=
  let g2 := { g with jury := dict_set g.jury player tok }
  match update_priority g2 player with
  | (g3, some e) => (g3, Except.error e)
  | (g3, none) => (g3, Except.ok (player ++ " is now voting"))

def jury_vote_command (g : Game) (player : String) (token : Option String) : CmdRes :=
  if ¬ (is_player_eliminated g player) then
    (g, Except.error (GameErr.InvalidMoveError (player ++ " has not been eliminated yet")))
  else
    -- check_tokens_exist(token): None is never a dictionary key, so passing
    -- no token raises TokenError(None) here in the source
    match force_board_size_set g with
    | (g1, some e) => (g1, Except.error e)
    | (g1, none) =>
      match token with
      | none => (g1, Except.error (GameErr.TokenError "None"))
      | some tok =>
        if ¬ (dict_contains g1.tokens tok) then
          (g1, Except.error (GameErr.TokenError tok))
        else if get_life g1 tok == 0 then
          (g1, Except.error (GameErr.InvalidMoveError "You may only vote for a live token"))
        else
          vote_execute g1 player tok

def add_player_command (g : Game) (player_name : String) : CmdRes :=
  if dict_contains g.players player_name then
    (g, Except.error (GameErr.PlayerError ("Player " ++ player_name ++ " already exists")))
  else
    let g1 := { g with players := dict_set g.players player_name [] }
    let r := set_random_seed g1 none
    (r.1, Except.ok ("Added player " ++ player_name))

def add_token_command (g : Game) (token owner : String) : CmdRes :=
  if ¬ (1 ≤ token.length ∧ token.length ≤ 2) then
    (g, Except.error (GameErr.TokenError ("Token " ++ token ++ " must be one character long")))
  else if dict_contains g.tokens token then
    (g, Except.error (GameErr.TokenError ("Token " ++ token ++ " already exists")))
  else if ¬ (dict_contains g.players owner) then
    (g, Except.error (GameErr.PlayerError ("Player " ++ owner ++ " not found")))
  else
    let g1 := { g with players := dict_modify g.players owner (fun l => l ++ [token]) }
    let g2 := { g1 with tokens := dict_set g1.tokens token (default_token_for g1 owner) }
    match g2.board_size with
    | none => (g2, Except.ok ("Added " ++ token ++ " to " ++ owner))
    | some _ =>
      match set_random_token_position g2 [token] with
      | (g3, Except.error e) => (g3, Except.error e)
      | (g3, Except.ok _) => (g3, Except.ok ("Added " ++ token ++ " to " ++ owner))

def set_upgrade_cost_command (g : Game) (cost : Int) : CmdRes :=
  if cost < 1 then (g, Except.error (GameErr.RangeError "Upgrade cost must be at least 1"))
  else ({ g with upgrade_cost := cost }, Except.ok "Upgrade cost set")

def set_heal_self_cost_command (g : Game) (cost : Int) : CmdRes :=
  if cost < 1 then (g, Except.error (GameErr.RangeError "Heal cost must be at least 1"))
  else ({ g with heal_self_cost := cost }, Except.ok "Heal self cost set")

def set_gift_heart_cost_command (g : Game) (cost : Int) : CmdRes :=
  if cost < 1 then (g, Except.error (GameErr.RangeError "Gift heart cost must be at least 1"))
  else ({ g with gift_heart_cost := cost }, Except.ok "Gift heart cost set")

def set_random_seed_command (g : Game) (seed : Option Int) : CmdRes :=
  let r := set_random_seed g seed
  (r.1, Except.ok r.2)

-- ===== Command dispatch and replay =====

/-- The typed command set of the COMMANDS dispatch table (help, a pure text
message, is omitted).  The text tokenizer that produces these from a line of
text is outside the engine core. -/
inductive GameCommand where
  | next_turn
  | move (token : String) (dx dy : Int)
  | gift (t1 t2 : String) (n : Int)
  | shoot (t1 t2 : String)
  | heal (token : String)
  | upgrade (token : String)
  | gift_heart (t1 t2 : String)
  | capture (t1 t2 : String)
  | vote (player : String) (token : Option String)
  | PLAYER (name : String)
  | TOKEN (token owner : String)
  | RANDOM_SEED (seed : Option Int)
  | BOARD_SIZE (size : Option Int)
  | UPGRADE_COST (cost : Int)
  | HEAL_SELF_COST (cost : Int)
  | GIFT_HEART_COST (cost : Int)
deriving DecidableEq, Repr

def execute_command (g : Game) : GameCommand → CmdRes
  | GameCommand.next_turn => give_ap_to_all_command g
  | GameCommand.move t dx dy => move_command g t dx dy
  | GameCommand.gift t1 t2 n => gift_command g t1 t2 n
  | GameCommand.shoot t1 t2 => shoot_command g t1 t2
  | GameCommand.heal t => heal_self_command g t
  | GameCommand.upgrade t => upgrade_token_command g t
  | GameCommand.gift_heart t1 t2 => gift_heart_command g t1 t2
  | GameCommand.capture t1 t2 => capture_command g t1 t2
  | GameCommand.vote p t => jury_vote_command g p t
  | GameCommand.PLAYER n => add_player_command g n
  | GameCommand.TOKEN t o => add_token_command g t o
  | GameCommand.RANDOM_SEED s => set_random_seed_command g s
  | GameCommand.BOARD_SIZE s => set_board_size_command g s true
  | GameCommand.UPGRADE_COST c => set_upgrade_cost_command g c
  | GameCommand.HEAL_SELF_COST c => set_heal_self_cost_command g c
  | GameCommand.GIFT_HEART_COST c => set_gift_heart_cost_command g c

/-- The loop of run_commands_from_file: after each successful command the
state is rendered (whose only state effect is the lazy board sizing); any
error is reported and stops the replay. -/
def run_log : Game → List GameCommand → Game × List String
  | g, [] => (g, [])
  | g, c :: rest =>
    match execute_command g c with
    | (g1, Except.ok msg) =>
      match force_board_size_set g1 with
      | (g2, none) =>
        let r := run_log g2 rest
        (r.1, msg :: r.2)
      | (g2, some _) => (g2, ["Error"])
    | (g1, Except.error _) => (g1, ["Error"])

def run_commands_from_file (g : Game) (log : List GameCommand) : Game × List String :=
  match force_board_size_set g with
  | (g1, none) => run_log g1 log
  | (g1, some _) => (g1, [])

/-- A sequence of commands that must all succeed; the reachable states of
the specification are the results of this function. -/
def apply_commands : Game → List GameCommand → Option Game
  | g, [] => some g
  | g, c :: rest =>
    match execute_command g c with
    | (g1, Except.ok _) => apply_commands g1 rest
    | (_, Except.error _) => none

/-- Game.__init__ with the default parameters and a given integer seed:
every field as set in the constructor, followed by set_random_seed; the
board starts unsized, so init_tokens is not called. -/
def default_game (seed : Int) : Game :=
  let g : Game := {
    players := [], tokens := [], jury := [],
    board_size := none, life_cap := 3, action_range := 2, minimum_board_size := 5,
    heal_self_cost := 2, gift_heart_cost := 1, upgrade_cost := 5, capture_cost := 4,
    random_seed := none, priority := [], turn_counter := none,
    board_size_locked := false, rng := 0 }
  (set_random_seed g (some seed)).1

-- ===== Concrete test states =====

/-- A mid-game state with the default configuration and a 5 by 5 board,
used to evaluate single commands at concrete inputs. -/
def mk_test_game (players : List (String × List String)) (tokens : List (String × Token))
    (jury : List (String × String)) (priority : List String) : Game := {
  players := players, tokens := tokens, jury := jury,
  board_size := some 5, life_cap := 3, action_range := 2, minimum_board_size := 5,
  heal_self_cost := 2, gift_heart_cost := 1, upgrade_cost := 5, capture_cost := 4,
  random_seed := some 0, priority := priority, turn_counter := some 1,
  board_size_locked := true, rng := 0 }

def mk_token (owner : String) (pos : Int × Int) (ap life : Int) : Token :=
  { owner := owner, position := some pos, AP := ap, life := life, life_cap := 3, range := 2 }

def cmd_is_ok (r : CmdRes) : Bool :=
  match r.2 with
  | Except.ok _ => true
  | Except.error _ => false

/-- A freshly added player b with no tokens, an empty jury, and a living
token A owned by a. -/
def game_fresh_voter : Game :=
  mk_test_game [("a", ["A"]), ("b", [])]
    [("A", mk_token "a" (0, 0) 0 3)] [] ["a", "b"]

/-- A token U at full life (life = life_cap = 3) holding enough AP to pay
the upgrade cost. -/
def game_full_life : Game :=
  mk_test_game [("a", ["U"])] [("U", mk_token "a" (0, 0) 6 3)] [] ["a"]

/-- A state whose board has not been sized yet: one player with one token,
built by replaying commands from a freshly constructed engine. -/
def game_unsized : Game :=
  (apply_commands (default_game 0)
    [GameCommand.PLAYER "a", GameCommand.TOKEN "A" "a"]).getD (default_game 0)

/-- A sized board with every one of the 25 cells occupied. -/
def game_full_board : Game :=
  mk_test_game [("a", [])]
    ((all_positions 5).enum.map (fun q =>
      (toString q.1,
        { owner := "a", position := some q.2, AP := 0, life := 3, life_cap := 3, range := 2 })))
    [] ["a"]

/-- Attacker A with 1 AP next to defender B that is already at 0 life. -/
def game_dead_target : Game :=
  mk_test_game [("a", ["A"]), ("b", ["B"])]
    [("A", mk_token "a" (0, 0) 1 3), ("B", mk_token "b" (1, 1) 0 0)] [] ["a", "b"]

/-- A 0-life token D holding 6 AP next to a healthy token M. -/
def game_dead_actor : Game :=
  mk_test_game [("a", ["M"]), ("b", ["D"])]
    [("D", mk_token "b" (1, 1) 6 0), ("M", mk_token "a" (0, 0) 2 3)] [] ["a", "b"]

/-- An eliminated player b (no tokens) with a standing jury vote for A. -/
def game_jury_vote : Game :=
  mk_test_game [("a", ["A"]), ("b", [])]
    [("A", mk_token "a" (0, 0) 0 3)] [("b", "A")] ["a", "b"]

/-- The replay that drives a token to negative life: three turns of AP,
three shots bringing B to 0 life, one more turn, and a fourth shot. -/
def negative_life_log : List GameCommand :=
  [GameCommand.PLAYER "a", GameCommand.PLAYER "b",
   GameCommand.TOKEN "A" "a", GameCommand.TOKEN "B" "b",
   GameCommand.next_turn, GameCommand.next_turn, GameCommand.next_turn,
   GameCommand.shoot "A" "B", GameCommand.shoot "A" "B", GameCommand.shoot "A" "B",
   GameCommand.next_turn, GameCommand.shoot "A" "B"]

/-- The replay behind the stale-jury-entry counterexample: a tokenless
player b votes, then receives a living token. -/
def stale_jury_log : List GameCommand :=
  [GameCommand.PLAYER "a", GameCommand.PLAYER "b", GameCommand.TOKEN "A" "a",
   GameCommand.vote "b" (some "A"), GameCommand.TOKEN "B" "b"]

/-- The replay behind the resize counterexample: one token earns 1 AP, then
the board is resized explicitly. -/
def resize_log : List GameCommand :=
  [GameCommand.PLAYER "a", GameCommand.TOKEN "A" "a", GameCommand.next_turn]

-- ===== Well-formedness =====

/-- The per-token part of the state invariant the engine is meant to keep:
bounded life, non-negative AP, and an owner registered both in the player
table and in the priority list. -/
def wf_token (g : Game) (p : String × Token) : Bool :=
  decide (0 ≤ p.2.life) && decide (p.2.life ≤ p.2.life_cap) && decide (0 ≤ p.2.AP) &&
  g.priority.contains p.2.owner && dict_contains g.players p.2.owner

/-- A well-formed mid-game state: the board has been sized (so the turn
counter is set), every token is well-formed, and the player table lists
exactly as many tokens as the token table holds. -/
def wf (g : Game) : Bool :=
  g.board_size.isSome && g.turn_counter.isSome &&
  g.tokens.all (wf_token g) &&
  ((init_key_owner_pairs g).length == g.tokens.length)

-- ===== Theorems =====

/-- C3: the claim that shoot(t1, t2) is rejected with InvalidMove when t2
already has life 0 FAILS on the code: shoot_command has no life guard on the
target, the shot succeeds and drives the target to life -1. -/
theorem c3_shoot_dead_target_not_rejected :
    get_life game_dead_target "B" = 0 ∧
    (shoot_command game_dead_target "A" "B").2 = Except.ok "A shot at B" ∧
    get_life (shoot_command game_dead_target "A" "B").1 "B" = -1 := by decide

/-- C4: the reachable-state invariant 0 ≤ life FAILS on the code: replaying
negative_life_log from a fresh engine succeeds entirely and leaves token B
at life -1. -/
theorem c4_life_invariant_violated :
    (apply_commands (default_game 0) negative_life_log).isSome = true ∧
    (apply_commands (default_game 0) negative_life_log).map (fun g => get_life g "B") =
      some (-1) := by decide

/-- C5: the claim that a 0-life token can take no action FAILS on the code:
only move_command (and gift_heart_command, via its life bound) checks the
actor's life; a 0-life token with AP successfully shoots, gifts, heals
itself back to life, upgrades, and captures. -/
theorem c5_dead_token_can_act :
    get_life game_dead_actor "D" = 0 ∧
    (cmd_is_ok (shoot_command game_dead_actor "D" "M") = true ∧
      get_life (shoot_command game_dead_actor "D" "M").1 "M" = 2) ∧
    (cmd_is_ok (heal_self_command game_dead_actor "D") = true ∧
      get_life (heal_self_command game_dead_actor "D").1 "D" = 1) ∧
    cmd_is_ok (gift_command game_dead_actor "D" "M" 1) = true ∧
    cmd_is_ok (upgrade_token_command game_dead_actor "D") = true := by decide

/-- C8: the claim that vote(player) with no token clears the jury entry
FAILS on the code: check_tokens_exist(None) raises TokenError(None) because
None is never a dictionary key, and the entry is left in place (the code
path that would skip the assignment never deletes anything either). -/
theorem c8_vote_none_raises :
    is_player_eliminated game_jury_vote "b" = true ∧
    jury_vote_command game_jury_vote "b" none =
      (game_jury_vote, Except.error (GameErr.TokenError "None")) ∧
    dict_get (jury_vote_command game_jury_vote "b" none).1.jury "b" = some "A" := by decide

/-- C9: determinism of replay.  The embedded engine threads the generator
state and the sorted iteration order explicitly, so two independently
constructed engines given the same seed and the same ordered command log
reach the same final state and produce the same report. -/
theorem c9_replay_deterministic (s1 s2 : Int) (l1 l2 : List GameCommand)
    (hseed : s1 = s2) (hlog : l1 = l2) :
    run_commands_from_file (default_game s1) l1 =
      run_commands_from_file (default_game s2) l2 := by
  subst hseed; subst hlog; rfl

theorem c9_replay_deterministic_witness :
    (0 : Int) = 0 ∧ [GameCommand.PLAYER "a"] = [GameCommand.PLAYER "a"] ∧
    run_commands_from_file (default_game 0) [GameCommand.PLAYER "a"] =
      run_commands_from_file (default_game 0) [GameCommand.PLAYER "a"] :=
  ⟨rfl, rfl, c9_replay_deterministic 0 0 [GameCommand.PLAYER "a"] [GameCommand.PLAYER "a"] rfl rfl⟩

/-- C1 counterexample: atomicity FAILS on the code in three places.
First, a failing command on an unsized board mutates state before raising:
the token-existence check lazily sizes the board, then raises TokenError.
Second, add_token_command registers the token in both tables and only then
fails to place it on a full board.  Third, jury_vote_command writes the jury
entry before update_priority raises for a player name that is not in the
priority list. -/
theorem c1_counterexample :
    ((move_command game_unsized "X" 1 0).2 = Except.error (GameErr.TokenError "X") ∧
      game_unsized.board_size = none ∧
      (move_command game_unsized "X" 1 0).1.board_size = some 5) ∧
    ((add_token_command game_full_board "Z" "a").2 =
        Except.error (GameErr.BoardSizeError "Not enough space on board for new tokens") ∧
      dict_contains game_full_board.tokens "Z" = false ∧
      dict_contains (add_token_command game_full_board "Z" "a").1.tokens "Z" = true) ∧
    ((jury_vote_command game_dead_target "zz" (some "A")).2 =
        Except.error (GameErr.ValueError "not in list") ∧
      game_dead_target.jury = [] ∧
      (jury_vote_command game_dead_target "zz" (some "A")).1.jury = [("zz", "A")]) := by decide

/-- C2 counterexample: the claim that a successful resize leaves AP, life,
life_cap and range unchanged FAILS on the code: set_board_size_command calls
init_tokens, which rebuilds every token at the configured defaults.  Here
token A holds 1 AP before the resize and 0 AP after it. -/
theorem c2_counterexample :
    (apply_commands (default_game 0) resize_log).map (fun g => get_ap g "A") = some 1 ∧
    (apply_commands (default_game 0) resize_log).map
      (fun g => cmd_is_ok (set_board_size_command g (some 7) true)) = some true ∧
    (apply_commands (default_game 0) resize_log).map
      (fun g => get_ap (set_board_size_command g (some 7) true).1 "A") = some 0 := by decide

/-- C6 counterexample: the claim that a jury entry is removed the moment its
player regains a living token FAILS on the code: after stale_jury_log the
tokenless player b voted (jury entry b -> A), then received living token B
via add_token_command, which never touches the jury, so the entry persists
while b is no longer eliminated. -/
theorem c6_counterexample :
    (apply_commands (default_game 0) stale_jury_log).map
      (fun g => (is_player_eliminated g "b", dict_get g.jury "b")) =
      some (false, some "A") := by decide


-- ===== Toolbox lemmas about the dictionary model =====

theorem dict_get_mem {α : Type} {d : List (String × α)} {k : String} {v : α}
    (h : dict_get d k = some v) : (k, v) ∈ d := by
  induction d with
  | nil => simp [dict_get] at h
  | cons p d ih =>
    unfold dict_get at h
    by_cases hk : (p.1 == k) = true
    · rw [if_pos hk] at h
      have hpk : p.1 = k := by rwa [beq_iff_eq] at hk
      obtain ⟨p1, p2⟩ := p
      cases h
      simp only at hpk
      subst hpk
      exact List.mem_cons_self _ _
    · rw [if_neg hk] at h
      exact List.mem_cons_of_mem _ (ih h)

theorem dict_contains_exists {α : Type} {d : List (String × α)} {k : String}
    (h : dict_contains d k = true) : ∃ v, dict_get d k = some v := by
  induction d with
  | nil => simp [dict_contains] at h
  | cons p d ih =>
    unfold dict_contains at h
    unfold dict_get
    by_cases hk : (p.1 == k) = true
    · exact ⟨p.2, by rw [if_pos hk]⟩
    · rw [Bool.or_eq_true] at h
      rcases h with h | h
      · exact absurd h hk
      · obtain ⟨v, hv⟩ := ih h
        exact ⟨v, by rw [if_neg hk]; exact hv⟩

theorem dict_get_contains {α : Type} {d : List (String × α)} {k : String} {v : α}
    (h : dict_get d k = some v) : dict_contains d k = true := by
  induction d with
  | nil => simp [dict_get] at h
  | cons p d ih =>
    unfold dict_get at h
    unfold dict_contains
    by_cases hk : (p.1 == k) = true
    · rw [hk, Bool.true_or]
    · rw [if_neg hk] at h
      rw [ih h, Bool.or_true]

theorem dict_get_none_of_not_contains {α : Type} {d : List (String × α)} {k : String}
    (h : dict_contains d k = false) : dict_get d k = none := by
  induction d with
  | nil => rfl
  | cons p d ih =>
    unfold dict_contains at h
    rw [Bool.or_eq_false_iff] at h
    unfold dict_get
    rw [if_neg (by rw [h.1]; exact Bool.false_ne_true), ih h.2]

/-- Lookup after a keyed in-place modification: the modified key reads
through f, any other key is untouched. -/
theorem dict_get_modify {α : Type} (d : List (String × α)) (k k' : String) (f : α → α) :
    dict_get (dict_modify d k f) k' =
      if (k' == k) = true then (dict_get d k').map f else dict_get d k' := by
  induction d with
  | nil => by_cases h : (k' == k) = true <;> simp [dict_get, dict_modify, h]
  | cons p d ih =>
    by_cases h1 : p.1 = k <;> by_cases h2 : k' = k <;> by_cases h3 : p.1 = k' <;>
      simp_all [dict_get, dict_modify]

theorem dict_get_modify_self {α : Type} (d : List (String × α)) (k : String) (f : α → α) :
    dict_get (dict_modify d k f) k = (dict_get d k).map f := by
  rw [dict_get_modify, if_pos (by rw [beq_iff_eq])]

theorem dict_get_modify_ne {α : Type} (d : List (String × α)) (k k' : String) (f : α → α)
    (h : (k' == k) = false) :
    dict_get (dict_modify d k f) k' = dict_get d k' := by
  rw [dict_get_modify, if_neg (by rw [h]; exact Bool.false_ne_true)]


theorem dict_get_append {α : Type} (d1 d2 : List (String × α)) (k : String) :
    dict_get (d1 ++ d2) k =
      match dict_get d1 k with
      | some v => some v
      | none => dict_get d2 k := by
  induction d1 with
  | nil => simp [dict_get]
  | cons p d ih =>
    by_cases h : (p.1 == k) = true <;> simp [dict_get, h, ih]

theorem dict_get_replace {α : Type} (d : List (String × α)) (k k' : String) (v : α) :
    dict_get (d.map (fun p => if p.1 == k then (k, v) else p)) k' =
      if (k' == k) = true then (dict_get d k).map (fun _ => v) else dict_get d k' := by
  induction d with
  | nil => by_cases h : k' = k <;> simp_all [dict_get]
  | cons p d ih =>
    by_cases h1 : p.1 = k <;> by_cases h2 : k' = k <;> by_cases h3 : p.1 = k' <;>
      simp_all [dict_get]

theorem dict_get_set {α : Type} (d : List (String × α)) (k k' : String) (v : α) :
    dict_get (dict_set d k v) k' =
      if (k' == k) = true then some v else dict_get d k' := by
  unfold dict_set
  by_cases hc : dict_contains d k = true
  · rw [if_pos hc, dict_get_replace]
    obtain ⟨w, hw⟩ := dict_contains_exists hc
    rw [hw]
    by_cases h2 : (k' == k) = true
    · rw [if_pos h2, if_pos h2]
      rfl
    · rw [if_neg h2, if_neg h2]
  · rw [if_neg hc, dict_get_append]
    rw [Bool.not_eq_true] at hc
    by_cases h2 : k' = k
    · subst h2
      rw [dict_get_none_of_not_contains hc]
      simp [dict_get]
    · have hbeq : (k' == k) = false := by rw [beq_eq_false_iff_ne]; exact h2
      rw [if_neg (by rw [hbeq]; exact Bool.false_ne_true)]
      cases hg : dict_get d k' with
      | some w => rfl
      | none =>
        have hkk : (k == k') = false := by
          rw [beq_eq_false_iff_ne]
          exact fun hh => h2 hh.symm
        simp [dict_get, hkk]

theorem dict_get_del {α : Type} (d : List (String × α)) (k k' : String) :
    dict_get (dict_del d k) k' =
      if (k' == k) = true then none else dict_get d k' := by
  induction d with
  | nil => by_cases h : k' = k <;> simp_all [dict_get, dict_del]
  | cons p d ih =>
    by_cases h1 : p.1 = k <;> by_cases h2 : k' = k <;> by_cases h3 : p.1 = k' <;>
      simp_all [dict_get, dict_del, List.filter_cons]

theorem dict_del_not_contains {α : Type} (d : List (String × α)) (k : String)
    (hc : dict_contains d k = false) : dict_del d k = d := by
  induction d with
  | nil => rfl
  | cons p d ih =>
    unfold dict_contains at hc
    rw [Bool.or_eq_false_iff] at hc
    unfold dict_del at ih ⊢
    rw [List.filter_cons, if_pos (show (p.1 != k) = true by simp [bne, hc.1]), ih hc.2]

-- ===== Toolbox lemmas about validation helpers =====

theorem force_sized {g : Game} {n : Nat} (hb : g.board_size = some n) :
    force_board_size_set g = (g, none) := by
  unfold force_board_size_set
  rw [hb]

theorem check_tokens_exist_eq {g : Game} {n : Nat} (hb : g.board_size = some n)
    (toks : List String) :
    check_tokens_exist g toks =
      (g, match toks.find? (fun t => !(dict_contains g.tokens t)) with
          | some t => some (GameErr.TokenError t)
          | none => none) := by
  unfold check_tokens_exist
  rw [force_sized hb]
  dsimp only
  cases toks.find? (fun t => !(dict_contains g.tokens t)) <;> rfl

theorem check_has_ap_none {g : Game} {t : String} {c : Int}
    (h : check_has_ap g t c = none) :
    ∃ info, dict_get g.tokens t = some info ∧ c ≤ info.AP := by
  unfold check_has_ap at h
  cases hg : dict_get g.tokens t with
  | none => simp only [hg] at h; simp at h
  | some info =>
    simp only [hg] at h
    by_cases hap : info.AP < c
    · simp only [if_pos hap] at h; simp at h
    · exact ⟨info, rfl, by omega⟩

theorem check_has_ap_eq_none {g : Game} {t : String} {c : Int} {info : Token}
    (hg : dict_get g.tokens t = some info) (hle : c ≤ info.AP) :
    check_has_ap g t c = none := by
  unfold check_has_ap
  simp only [hg]
  rw [if_neg (by omega)]

theorem check_life_cap_none {g : Game} {t : String} {extra : Int}
    (h : check_life_cap g t extra = none) :
    ∃ info, dict_get g.tokens t = some info ∧
      info.life + extra ≤ info.life_cap ∧ 0 ≤ info.life + extra := by
  unfold check_life_cap at h
  cases hg : dict_get g.tokens t with
  | none => simp only [hg] at h; simp at h
  | some info =>
    simp only [hg] at h
    by_cases h1 : info.life + extra > info.life_cap
    · simp only [if_pos h1] at h; simp at h
    · simp only [if_neg h1] at h
      by_cases h2 : info.life + extra < 0
      · simp only [if_pos h2] at h; simp at h
      · exact ⟨info, rfl, by omega, by omega⟩

theorem check_life_cap_eq_none {g : Game} {t : String} {extra : Int} {info : Token}
    (hg : dict_get g.tokens t = some info)
    (h1 : info.life + extra ≤ info.life_cap) (h2 : 0 ≤ info.life + extra) :
    check_life_cap g t extra = none := by
  unfold check_life_cap
  simp only [hg]
  rw [if_neg (by omega), if_neg (by omega)]

theorem spend_ap_ok {g : Game} {t : String} {a : Int} {info : Token}
    (hg : dict_get g.tokens t = some info) (h0 : 0 ≤ a) (hle : a ≤ info.AP) :
    spend_ap g t a =
      ({ g with tokens := dict_modify g.tokens t (fun i => { i with AP := i.AP - a }) },
       none) := by
  unfold spend_ap
  rw [if_neg (by omega), check_has_ap_eq_none hg hle]

theorem increase_ap_ok {g : Game} {t : String} {a : Int} (h0 : 0 ≤ a) :
    increase_ap g t a =
      ({ g with tokens := dict_modify g.tokens t (fun i => { i with AP := i.AP + a }) },
       none) := by
  unfold increase_ap
  rw [if_neg (by omega)]

theorem update_priority_ok {g : Game} {p : String} (h : g.priority.contains p = true) :
    update_priority g p = ({ g with priority := (g.priority.erase p) ++ [p] }, none) := by
  unfold update_priority
  rw [if_pos h]

theorem wf_parts {g : Game} (h : wf g = true) :
    (∃ n, g.board_size = some n) ∧ (∃ t, g.turn_counter = some t) ∧
    g.tokens.all (wf_token g) = true ∧
    (init_key_owner_pairs g).length = g.tokens.length := by
  unfold wf at h
  simp only [Bool.and_eq_true] at h
  obtain ⟨⟨⟨h1, h2⟩, h3⟩, h4⟩ := h
  refine ⟨?_, ?_, h3, by simpa using h4⟩
  · exact Option.isSome_iff_exists.mp h1
  · exact Option.isSome_iff_exists.mp h2

theorem wf_token_facts {g : Game} {t : String} {info : Token}
    (hall : g.tokens.all (wf_token g) = true)
    (hg : dict_get g.tokens t = some info) :
    0 ≤ info.life ∧ info.life ≤ info.life_cap ∧ 0 ≤ info.AP ∧
    g.priority.contains info.owner = true ∧ dict_contains g.players info.owner = true := by
  have hmem := dict_get_mem hg
  have hw := List.all_eq_true.mp hall _ hmem
  unfold wf_token at hw
  simp only [Bool.and_eq_true, decide_eq_true_eq] at hw
  exact ⟨hw.1.1.1.1, hw.1.1.1.2, hw.1.1.2, hw.1.2, hw.2⟩

theorem get_owner_eq {g : Game} {t : String} {info : Token}
    (h : dict_get g.tokens t = some info) : get_owner g t = info.owner := by
  unfold get_owner
  rw [h]

theorem get_life_eq {g : Game} {t : String} {info : Token}
    (h : dict_get g.tokens t = some info) : get_life g t = info.life := by
  unfold get_life
  rw [h]

theorem get_ap_eq {g : Game} {t : String} {info : Token}
    (h : dict_get g.tokens t = some info) : get_ap g t = info.AP := by
  unfold get_ap
  rw [h]

theorem dict_get_modify_exists {α : Type} {d : List (String × α)} {t : String} {v : α}
    (k : String) (f : α → α) (hget : dict_get d t = some v) :
    ∃ v', dict_get (dict_modify d k f) t = some v' ∧ (v' = v ∨ v' = f v) := by
  by_cases h : (t == k) = true
  · rw [beq_iff_eq] at h
    subst h
    rw [dict_get_modify_self, hget]
    exact ⟨f v, rfl, Or.inr rfl⟩
  · rw [Bool.not_eq_true] at h
    rw [dict_get_modify_ne _ _ _ _ h]
    exact ⟨v, hget, Or.inl rfl⟩

theorem increase_life_ok {g : Game} {t : String} {a : Int} {info : Token}
    (hg : dict_get g.tokens t = some info)
    (h1 : info.life + a ≤ info.life_cap) (h2 : 0 ≤ info.life + a) :
    increase_life g t a =
      ({ g with tokens := dict_modify g.tokens t (fun i => { i with life := i.life + a }) },
       none) := by
  unfold increase_life
  rw [check_life_cap_eq_none hg h1 h2]

theorem move_execute_ok {g : Game} {token : String} {info : Token} {x y : Int}
    (hget : dict_get g.tokens token = some info)
    (hap : 1 ≤ info.AP)
    (hpri : g.priority.contains info.owner = true) :
    ∃ g', move_execute g token x y = (g', Except.ok (token ++ " moved")) := by
  unfold move_execute
  dsimp only
  set G2 : Game := { g with tokens := dict_modify g.tokens token (fun i => { i with position := some (x, y) }) } with hG2
  have h2 : dict_get G2.tokens token = some { info with position := some (x, y) } := by
    rw [hG2]
    dsimp only
    rw [dict_get_modify_self, hget]
    rfl
  rw [spend_ap_ok h2 (by omega) hap]
  dsimp only
  set G3 : Game := { G2 with tokens := dict_modify G2.tokens token (fun i => { i with AP := i.AP - 1 }) } with hG3
  have h3 : dict_get G3.tokens token = some { info with position := some (x, y), AP := info.AP - 1 } := by
    rw [hG3]
    dsimp only
    rw [dict_get_modify_self, h2]
    rfl
  rw [get_owner_eq h3]
  have hpri3 : G3.priority.contains info.owner = true := by
    rw [hG3, hG2]
    exact hpri
  rw [update_priority_ok hpri3]
  exact ⟨_, rfl⟩

theorem heal_execute_atomic {g : Game} {token : String} {info : Token}
    (hget : dict_get g.tokens token = some info)
    (hpri : g.priority.contains info.owner = true) :
    (heal_execute g token).1 = g ∨ ∃ m, (heal_execute g token).2 = Except.ok m := by
  unfold heal_execute
  by_cases hc : g.heal_self_cost < 0
  · unfold spend_ap
    rw [if_pos hc]
    left
    rfl
  · by_cases hap : info.AP < g.heal_self_cost
    · unfold spend_ap check_has_ap
      rw [if_neg hc, hget]
      dsimp only
      rw [if_pos hap]
      left
      rfl
    · rw [spend_ap_ok hget (by omega) (by omega)]
      dsimp only
      set G1 : Game := { g with tokens := dict_modify g.tokens token (fun i => { i with AP := i.AP - g.heal_self_cost }) } with hG1
      set G2 : Game := { G1 with tokens := dict_modify G1.tokens token (fun i => { i with life := i.life + 1 }) } with hG2
      have h1 : dict_get G1.tokens token = some { info with AP := info.AP - g.heal_self_cost } := by
        rw [hG1]
        dsimp only
        rw [dict_get_modify_self, hget]
        rfl
      have h2 : dict_get G2.tokens token = some { info with AP := info.AP - g.heal_self_cost, life := info.life + 1 } := by
        rw [hG2]
        dsimp only
        rw [dict_get_modify_self, h1]
        rfl
      rw [get_owner_eq h2]
      have hpri2 : G2.priority.contains info.owner = true := by
        rw [hG2, hG1]
        exact hpri
      rw [update_priority_ok hpri2]
      right
      exact ⟨_, rfl⟩

theorem gift_execute_atomic {g : Game} {t1 t2 : String} {n : Int} {i1 : Token}
    (hget : dict_get g.tokens t1 = some i1)
    (hpri : g.priority.contains i1.owner = true) :
    (gift_execute g t1 t2 n).1 = g ∨ ∃ m, (gift_execute g t1 t2 n).2 = Except.ok m := by
  unfold gift_execute
  by_cases hc : n < 0
  · unfold spend_ap
    rw [if_pos hc]
    left
    rfl
  · by_cases hap : i1.AP < n
    · unfold spend_ap check_has_ap
      rw [if_neg hc, hget]
      dsimp only
      rw [if_pos hap]
      left
      rfl
    · rw [spend_ap_ok hget (by omega) (by omega)]
      dsimp only
      set G1 : Game := { g with tokens := dict_modify g.tokens t1 (fun i => { i with AP := i.AP - n }) } with hG1
      rw [increase_ap_ok (by omega)]
      dsimp only
      set G2 : Game := { G1 with tokens := dict_modify G1.tokens t2 (fun i => { i with AP := i.AP + n }) } with hG2
      have h1 : dict_get G1.tokens t1 = some { i1 with AP := i1.AP - n } := by
        rw [hG1]
        dsimp only
        rw [dict_get_modify_self, hget]
        rfl
      obtain ⟨i1', hi1', hcase⟩ := dict_get_modify_exists t2
        (fun i => { i with AP := i.AP + n }) h1
      have hi1'' : dict_get G2.tokens t1 = some i1' := by
        rw [hG2]
        dsimp only
        exact hi1'
      have howner : i1'.owner = i1.owner := by
        rcases hcase with h | h <;> subst h <;> rfl
      rw [get_owner_eq hi1'', howner]
      have hpri2 : G2.priority.contains i1.owner = true := by
        rw [hG2, hG1]
        exact hpri
      rw [update_priority_ok hpri2]
      right
      exact ⟨_, rfl⟩

theorem upgrade_execute_atomic {g : Game} {token : String} {info : Token}
    (hget : dict_get g.tokens token = some info)
    (hlife0 : 0 ≤ info.life) (hlife1 : info.life ≤ info.life_cap)
    (hpri : g.priority.contains info.owner = true) :
    (upgrade_execute g token).1 = g ∨ ∃ m, (upgrade_execute g token).2 = Except.ok m := by
  unfold upgrade_execute
  by_cases hc : g.upgrade_cost < 0
  · unfold spend_ap
    rw [if_pos hc]
    left
    rfl
  · by_cases hap : info.AP < g.upgrade_cost
    · unfold spend_ap check_has_ap
      rw [if_neg hc, hget]
      dsimp only
      rw [if_pos hap]
      left
      rfl
    · rw [spend_ap_ok hget (by omega) (by omega)]
      dsimp only
      set G1 : Game := { g with tokens := dict_modify g.tokens token (fun i => { i with AP := i.AP - g.upgrade_cost }) } with hG1
      have h1 : dict_get G1.tokens token = some { info with AP := info.AP - g.upgrade_cost } := by
        rw [hG1]
        dsimp only
        rw [dict_get_modify_self, hget]
        rfl
      unfold increase_life_cap
      set G2 : Game := { G1 with tokens := dict_modify G1.tokens token (fun i => { i with life_cap := i.life_cap + 1 }) } with hG2
      have h2 : dict_get G2.tokens token = some { info with AP := info.AP - g.upgrade_cost, life_cap := info.life_cap + 1 } := by
        rw [hG2]
        dsimp only
        rw [dict_get_modify_self, h1]
        rfl
      rw [increase_life_ok h2 (by first | omega | (dsimp only; omega)) (by first | omega | (dsimp only; omega))]
      dsimp only
      set G3 : Game := { G2 with tokens := dict_modify G2.tokens token (fun i => { i with life := i.life + 1 }) } with hG3
      have h3 : dict_get G3.tokens token = some { info with AP := info.AP - g.upgrade_cost, life_cap := info.life_cap + 1, life := info.life + 1 } := by
        rw [hG3]
        dsimp only
        rw [dict_get_modify_self, h2]
        rfl
      unfold increase_range
      set G4 : Game := { G3 with tokens := dict_modify G3.tokens token (fun i => { i with range := i.range + 1 }) } with hG4
      have h4 : dict_get G4.tokens token = some { info with AP := info.AP - g.upgrade_cost, life_cap := info.life_cap + 1, life := info.life + 1, range := info.range + 1 } := by
        rw [hG4]
        dsimp only
        rw [dict_get_modify_self, h3]
        rfl
      rw [get_owner_eq h4]
      have hpri4 : G4.priority.contains info.owner = true := by
        rw [hG4, hG3, hG2, hG1]
        exact hpri
      rw [update_priority_ok hpri4]
      right
      exact ⟨_, rfl⟩

theorem vote_execute_ok {g : Game} {player tok : String}
    (hpri : g.priority.contains player = true) :
    ∃ g', vote_execute g player tok = (g', Except.ok (player ++ " is now voting")) := by
  unfold vote_execute
  dsimp only
  have hpri2 : ({ g with jury := dict_set g.jury player tok } : Game).priority.contains player = true := hpri
  rw [update_priority_ok hpri2]
  exact ⟨_, rfl⟩

theorem shoot_execute_atomic {g : Game} {t1 t2 : String} {i1 i2 : Token}
    (hget1 : dict_get g.tokens t1 = some i1)
    (hget2 : dict_get g.tokens t2 = some i2)
    (hap2 : 0 ≤ i2.AP)
    (hpri : g.priority.contains i1.owner = true) :
    (shoot_execute g t1 t2).1 = g ∨ ∃ m, (shoot_execute g t1 t2).2 = Except.ok m := by
  unfold shoot_execute
  by_cases hap : i1.AP < 1
  · unfold spend_ap check_has_ap
    rw [if_neg (by omega), hget1]
    dsimp only
    rw [if_pos hap]
    left
    rfl
  · rw [spend_ap_ok hget1 (by omega) (by omega)]
    dsimp only
    set G1 : Game := { g with tokens := dict_modify g.tokens t1 (fun i => { i with AP := i.AP - 1 }) } with hG1
    set G2 : Game := { G1 with tokens := dict_modify G1.tokens t2 (fun i => { i with life := i.life - 1 }) } with hG2
    have h1 : dict_get G1.tokens t1 = some { i1 with AP := i1.AP - 1 } := by
      rw [hG1]
      dsimp only
      rw [dict_get_modify_self, hget1]
      rfl
    obtain ⟨i1', hi1'0, hc1⟩ := dict_get_modify_exists t2
      (fun i => { i with life := i.life - 1 }) h1
    have hi1' : dict_get G2.tokens t1 = some i1' := by
      rw [hG2]
      dsimp only
      exact hi1'0
    have howner1 : i1'.owner = i1.owner := by
      rcases hc1 with h | h <;> subst h <;> rfl
    rw [get_owner_eq hi1', howner1]
    have hpri2 : G2.priority.contains i1.owner = true := by
      rw [hG2, hG1]
      exact hpri
    rw [update_priority_ok hpri2]
    dsimp only
    set G3 : Game := { G2 with priority := G2.priority.erase i1.owner ++ [i1.owner] } with hG3
    by_cases ht : (t2 == t1) = true
    · rw [beq_iff_eq] at ht
      subst ht
      rw [hget1] at hget2
      injection hget2 with hii
      subst hii
      have h2 : dict_get G3.tokens t2 = some { i1 with AP := i1.AP - 1, life := i1.life - 1 } := by
        simp only [hG3, hG2, dict_get_modify_self, h1]
        rfl
      by_cases hz : (get_life G3 t2 == 0) = true
      · rw [if_pos hz]
        unfold transfer_ap
        rw [get_ap_eq h2]
        rw [spend_ap_ok h2 (by first | omega | (dsimp only; omega)) (by first | omega | (dsimp only; omega))]
        dsimp only
        rw [increase_ap_ok (by first | omega | (dsimp only; omega))]
        right
        exact ⟨_, rfl⟩
      · rw [if_neg hz]
        right
        exact ⟨_, rfl⟩
    · rw [Bool.not_eq_true] at ht
      have h2 : dict_get G3.tokens t2 = some { i2 with life := i2.life - 1 } := by
        simp only [hG3, hG2, dict_get_modify_self, hG1, dict_get_modify_ne _ _ _ _ ht, hget2]
        rfl
      by_cases hz : (get_life G3 t2 == 0) = true
      · rw [if_pos hz]
        unfold transfer_ap
        rw [get_ap_eq h2]
        rw [spend_ap_ok h2 (by first | omega | (dsimp only; omega)) (by first | omega | (dsimp only; omega))]
        dsimp only
        rw [increase_ap_ok (by first | omega | (dsimp only; omega))]
        right
        exact ⟨_, rfl⟩
      · rw [if_neg hz]
        right
        exact ⟨_, rfl⟩

theorem gift_heart_execute_atomic {g : Game} {t1 t2 : String} {i1 : Token}
    (hget1 : dict_get g.tokens t1 = some i1)
    (hpri : g.priority.contains i1.owner = true) :
    (gift_heart_execute g t1 t2).1 = g ∨ ∃ m, (gift_heart_execute g t1 t2).2 = Except.ok m := by
  unfold gift_heart_execute
  by_cases hc : g.gift_heart_cost < 0
  · unfold spend_ap
    rw [if_pos hc]
    left
    rfl
  · by_cases hap : i1.AP < g.gift_heart_cost
    · unfold spend_ap check_has_ap
      rw [if_neg hc, hget1]
      dsimp only
      rw [if_pos hap]
      left
      rfl
    · rw [spend_ap_ok hget1 (by omega) (by omega)]
      dsimp only
      set G1 : Game := { g with tokens := dict_modify g.tokens t1 (fun i => { i with AP := i.AP - g.gift_heart_cost }) } with hG1
      set G2 : Game := { G1 with tokens := dict_modify G1.tokens t1 (fun i => { i with life := i.life - 1 }) } with hG2
      set G3 : Game := { G2 with tokens := dict_modify G2.tokens t2 (fun i => { i with life := i.life + 1 }) } with hG3
      have h1 : dict_get G1.tokens t1 = some { i1 with AP := i1.AP - g.gift_heart_cost } := by
        rw [hG1]
        dsimp only
        rw [dict_get_modify_self, hget1]
        rfl
      have h2 : dict_get G2.tokens t1 = some { i1 with AP := i1.AP - g.gift_heart_cost, life := i1.life - 1 } := by
        rw [hG2]
        dsimp only
        rw [dict_get_modify_self, h1]
        rfl
      obtain ⟨i1', hi1'0, hc1⟩ := dict_get_modify_exists t2
        (fun i => { i with life := i.life + 1 }) h2
      have hi1' : dict_get G3.tokens t1 = some i1' := by
        rw [hG3]
        dsimp only
        exact hi1'0
      have howner1 : i1'.owner = i1.owner := by
        rcases hc1 with h | h <;> subst h <;> rfl
      by_cases hj : dict_contains G3.jury (get_owner G3 t2) = true
      · rw [if_pos hj]
        set G4 : Game := { G3 with jury := dict_del G3.jury (get_owner G3 t2) } with hG4
        have hi1'' : dict_get G4.tokens t1 = some i1' := by
          rw [hG4]
          dsimp only
          exact hi1'
        rw [get_owner_eq hi1'', howner1]
        have hpri4 : G4.priority.contains i1.owner = true := by
          rw [hG4, hG3, hG2, hG1]
          exact hpri
        rw [update_priority_ok hpri4]
        right
        exact ⟨_, rfl⟩
      · rw [if_neg hj]
        rw [get_owner_eq hi1', howner1]
        have hpri3 : G3.priority.contains i1.owner = true := by
          rw [hG3, hG2, hG1]
          exact hpri
        rw [update_priority_ok hpri3]
        right
        exact ⟨_, rfl⟩

theorem capture_execute_atomic {g : Game} {t1 t2 owner_1 owner_2 : String} {i1 : Token}
    (hget1 : dict_get g.tokens t1 = some i1)
    (howner1 : i1.owner = owner_1)
    (hne12 : (t1 == t2) = false)
    (hneo : (owner_1 == owner_2) = false)
    (hpl1 : dict_contains g.players owner_1 = true)
    (hpl2 : dict_contains g.players owner_2 = true)
    (hpri1 : g.priority.contains owner_1 = true) :
    (capture_execute g t1 t2 owner_1 owner_2).1 = g ∨
      ∃ m, (capture_execute g t1 t2 owner_1 owner_2).2 = Except.ok m := by
  unfold capture_execute
  by_cases hc : g.capture_cost < 0
  · unfold spend_ap
    rw [if_pos hc]
    left
    rfl
  · by_cases hap : i1.AP < g.capture_cost
    · unfold spend_ap check_has_ap
      rw [if_neg hc, hget1]
      dsimp only
      rw [if_pos hap]
      left
      rfl
    · rw [spend_ap_ok hget1 (by omega) (by omega)]
      dsimp only
      set G1 : Game := { g with tokens := dict_modify g.tokens t1 (fun i => { i with AP := i.AP - g.capture_cost }) } with hG1
      have h1 : dict_get G1.tokens t1 = some { i1 with AP := i1.AP - g.capture_cost } := by
        simp only [hG1, dict_get_modify_self, hget1]
        rfl
      obtain ⟨ol, hol0⟩ := dict_contains_exists hpl2
      have hol : dict_get G1.players owner_2 = some ol := hol0
      rw [hol]
      dsimp only
      have hpl1' : dict_contains G1.players owner_1 = true := hpl1
      by_cases hmem : ol.contains t2 = true
      · rw [if_pos hmem]
        set G2 : Game := { G1 with players := dict_set G1.players owner_2 (ol.erase t2) } with hG2
        obtain ⟨nl0, hnl0⟩ := dict_contains_exists hpl1
        have hnl : dict_get G2.players owner_1 = some nl0 := by
          simp only [hG2, dict_get_set, hneo]
          exact hnl0
        rw [hnl]
        dsimp only
        set G3 : Game := { G2 with players := dict_set G2.players owner_1 (nl0 ++ [t2]) } with hG3
        set G4 : Game := { G3 with tokens := dict_modify G3.tokens t2 (fun i => { i with owner := owner_1 }) } with hG4
        set G5 : Game := { G4 with tokens := dict_modify G4.tokens t2 (fun i => { i with life := 1 }) } with hG5
        have hne21 : (t1 == t2) = false := hne12
        have h5 : dict_get G5.tokens t1 = some { i1 with AP := i1.AP - g.capture_cost } := by
          simp only [hG5, hG4, hG3, dict_get_modify_ne _ _ _ _ hne21]
          exact h1
        have howner' : ({ i1 with AP := i1.AP - g.capture_cost } : Token).owner = owner_1 := howner1
        by_cases hcond : (is_player_eliminated G5 owner_2 ∧ ¬ (dict_contains G5.jury owner_2))
        · rw [if_pos hcond]
          set G6 : Game := { G5 with jury := dict_set G5.jury owner_2 t2 } with hG6
          have h6 : dict_get G6.tokens t1 = some { i1 with AP := i1.AP - g.capture_cost } := h5
          rw [get_owner_eq h6, howner']
          have hpri6 : G6.priority.contains owner_1 = true := hpri1
          rw [update_priority_ok hpri6]
          right
          exact ⟨_, rfl⟩
        · rw [if_neg hcond]
          rw [get_owner_eq h5, howner']
          have hpri5 : G5.priority.contains owner_1 = true := hpri1
          rw [update_priority_ok hpri5]
          right
          exact ⟨_, rfl⟩
      · rw [if_neg hmem]
        obtain ⟨nl0, hnl0⟩ := dict_contains_exists hpl1
        have hnl : dict_get G1.players owner_1 = some nl0 := hnl0
        rw [hnl]
        dsimp only
        set G3 : Game := { G1 with players := dict_set G1.players owner_1 (nl0 ++ [t2]) } with hG3
        set G4 : Game := { G3 with tokens := dict_modify G3.tokens t2 (fun i => { i with owner := owner_1 }) } with hG4
        set G5 : Game := { G4 with tokens := dict_modify G4.tokens t2 (fun i => { i with life := 1 }) } with hG5
        have hne21 : (t1 == t2) = false := hne12
        have h5 : dict_get G5.tokens t1 = some { i1 with AP := i1.AP - g.capture_cost } := by
          simp only [hG5, hG4, hG3, dict_get_modify_ne _ _ _ _ hne21]
          exact h1
        have howner' : ({ i1 with AP := i1.AP - g.capture_cost } : Token).owner = owner_1 := howner1
        by_cases hcond : (is_player_eliminated G5 owner_2 ∧ ¬ (dict_contains G5.jury owner_2))
        · rw [if_pos hcond]
          set G6 : Game := { G5 with jury := dict_set G5.jury owner_2 t2 } with hG6
          have h6 : dict_get G6.tokens t1 = some { i1 with AP := i1.AP - g.capture_cost } := h5
          rw [get_owner_eq h6, howner']
          have hpri6 : G6.priority.contains owner_1 = true := hpri1
          rw [update_priority_ok hpri6]
          right
          exact ⟨_, rfl⟩
        · rw [if_neg hcond]
          rw [get_owner_eq h5, howner']
          have hpri5 : G5.priority.contains owner_1 = true := hpri1
          rw [update_priority_ok hpri5]
          right
          exact ⟨_, rfl⟩

theorem find_none_contains {g : Game} {toks : List String}
    (hf : toks.find? (fun t => !(dict_contains g.tokens t)) = none) :
    ∀ t ∈ toks, dict_contains g.tokens t = true := by
  intro t ht
  have hh := List.find?_eq_none.mp hf t ht
  simpa using hh

theorem distance_fst {g : Game} {n : Nat} (hb : g.board_size = some n) (t1 t2 : String) :
    (distance g t1 t2).1 = g := by
  unfold distance
  rw [check_tokens_exist_eq hb]
  cases hf : [t1, t2].find? (fun t => !(dict_contains g.tokens t)) with
  | some t => rfl
  | none =>
    dsimp only
    cases dict_get g.tokens t1 with
    | none => cases dict_get g.tokens t2 <;> rfl
    | some i1 =>
      cases dict_get g.tokens t2 with
      | none => rfl
      | some i2 =>
        dsimp only
        cases i1.position <;> cases i2.position <;> rfl

theorem check_range_fst {g : Game} {n : Nat} (hb : g.board_size = some n)
    (t1 t2 : String) (dist : Option Int) :
    (check_range g t1 t2 dist).1 = g := by
  unfold check_range
  rcases hd : distance g t1 t2 with ⟨g1, r⟩
  have hg1 : (distance g t1 t2).1 = g := distance_fst hb t1 t2
  rw [hd] at hg1
  cases r with
  | error e => exact hg1
  | ok dd =>
    dsimp only
    cases dict_get g1.tokens t1 with
    | none => exact hg1
    | some i1 =>
      dsimp only
      cases dist with
      | none =>
        dsimp only
        by_cases hgt : dd > i1.range
        · rw [if_pos hgt]
          exact hg1
        · rw [if_neg hgt]
          exact hg1
      | some dd2 =>
        dsimp only
        by_cases hgt : dd > dd2
        · rw [if_pos hgt]
          exact hg1
        · rw [if_neg hgt]
          exact hg1

theorem next_turn_atomic {g : Game} {n : Nat} {t : Int}
    (hb : g.board_size = some n) (ht : g.turn_counter = some t) :
    (give_ap_to_all_command g).1 = g ∨
      ∃ m, (give_ap_to_all_command g).2 = Except.ok m := by
  unfold give_ap_to_all_command
  by_cases he : g.tokens.isEmpty = true
  · rw [if_pos he]
    left
    rfl
  · rw [if_neg he, force_sized hb]
    dsimp only
    rw [ht]
    dsimp only
    right
    exact ⟨_, rfl⟩

theorem move_command_atomic {g : Game} {n : Nat} (hb : g.board_size = some n)
    (hall : g.tokens.all (wf_token g) = true) (token : String) (dx dy : Int) :
    (move_command g token dx dy).1 = g ∨
      ∃ m, (move_command g token dx dy).2 = Except.ok m := by
  unfold move_command
  rw [check_tokens_exist_eq hb]
  cases hf : [token].find? (fun t => !(dict_contains g.tokens t)) with
  | some t => left; rfl
  | none =>
    dsimp only
    cases hap : check_has_ap g token 1 with
    | some e => left; rfl
    | none =>
      dsimp only
      obtain ⟨info, hget, hapge⟩ := check_has_ap_none hap
      rw [hget]
      dsimp only
      cases hpos : info.position with
      | none => left; rfl
      | some cp =>
        dsimp only
        by_cases hlife : info.life ≤ 0
        · rw [if_pos hlife]
          left
          rfl
        · rw [if_neg hlife, hb]
          dsimp only
          by_cases hbnd : (0 ≤ cp.1 + dx ∧ cp.1 + dx < (n : Int) ∧ 0 ≤ cp.2 + dy ∧ cp.2 + dy < (n : Int))
          · rw [if_neg (not_not_intro hbnd)]
            by_cases hadj : (max (cp.1 + dx - cp.1).natAbs (cp.2 + dy - cp.2).natAbs) = 1
            · rw [if_neg (not_not_intro hadj)]
              cases htile : get_tile g (cp.1 + dx) (cp.2 + dy) with
              | error e => left; rfl
              | ok tile =>
                dsimp only
                cases tile with
                | token tk =>
                  rw [if_pos rfl]
                  left
                  rfl
                | range_tile =>
                  rw [if_neg (by simp)]
                  have hw := wf_token_facts hall hget
                  obtain ⟨g', hg'⟩ := move_execute_ok hget hapge hw.2.2.2.1
                  rw [hg']
                  right
                  exact ⟨_, rfl⟩
                | blank_tile =>
                  rw [if_neg (by simp)]
                  have hw := wf_token_facts hall hget
                  obtain ⟨g', hg'⟩ := move_execute_ok hget hapge hw.2.2.2.1
                  rw [hg']
                  right
                  exact ⟨_, rfl⟩
            · rw [if_pos hadj]
              left
              rfl
          · rw [if_pos hbnd]
            left
            rfl

theorem gift_command_atomic {g : Game} {n : Nat} (hb : g.board_size = some n)
    (hall : g.tokens.all (wf_token g) = true) (t1 t2 : String) (np : Int) :
    (gift_command g t1 t2 np).1 = g ∨
      ∃ m, (gift_command g t1 t2 np).2 = Except.ok m := by
  unfold gift_command
  rw [check_tokens_exist_eq hb]
  cases hf : [t1, t2].find? (fun t => !(dict_contains g.tokens t)) with
  | some t => left; rfl
  | none =>
    dsimp only
    cases hap : check_has_ap g t1 np with
    | some e => left; rfl
    | none =>
      dsimp only
      rcases hcr : check_range g t1 t2 none with ⟨g2, o2⟩
      have hg2 : (check_range g t1 t2 none).1 = g := check_range_fst hb t1 t2 none
      rw [hcr] at hg2
      rw [show g2 = g from hg2]
      cases o2 with
      | some e =>
        left
        rfl
      | none =>
        obtain ⟨i1, hget1, _⟩ := check_has_ap_none hap
        have hw := wf_token_facts hall hget1
        show (gift_execute g t1 t2 np).1 = g ∨ ∃ m, (gift_execute g t1 t2 np).2 = Except.ok m
        exact gift_execute_atomic hget1 hw.2.2.2.1

theorem shoot_command_atomic {g : Game} {n : Nat} (hb : g.board_size = some n)
    (hall : g.tokens.all (wf_token g) = true) (t1 t2 : String) :
    (shoot_command g t1 t2).1 = g ∨
      ∃ m, (shoot_command g t1 t2).2 = Except.ok m := by
  unfold shoot_command
  rw [check_tokens_exist_eq hb]
  cases hf : [t1, t2].find? (fun t => !(dict_contains g.tokens t)) with
  | some t => left; rfl
  | none =>
    dsimp only
    cases hap : check_has_ap g t1 1 with
    | some e => left; rfl
    | none =>
      dsimp only
      rcases hcr : check_range g t1 t2 none with ⟨g2, o2⟩
      have hg2 : (check_range g t1 t2 none).1 = g := check_range_fst hb t1 t2 none
      rw [hcr] at hg2
      rw [show g2 = g from hg2]
      cases o2 with
      | some e =>
        left
        rfl
      | none =>
        obtain ⟨i1, hget1, _⟩ := check_has_ap_none hap
        have hw1 := wf_token_facts hall hget1
        have hc2 : dict_contains g.tokens t2 = true :=
          find_none_contains hf t2 (by simp)
        obtain ⟨i2, hget2⟩ := dict_contains_exists hc2
        have hw2 := wf_token_facts hall hget2
        show (shoot_execute g t1 t2).1 = g ∨ ∃ m, (shoot_execute g t1 t2).2 = Except.ok m
        exact shoot_execute_atomic hget1 hget2 hw2.2.2.1 hw1.2.2.2.1

theorem heal_command_atomic {g : Game} {n : Nat} (hb : g.board_size = some n)
    (hall : g.tokens.all (wf_token g) = true) (token : String) :
    (heal_self_command g token).1 = g ∨
      ∃ m, (heal_self_command g token).2 = Except.ok m := by
  unfold heal_self_command
  rw [check_tokens_exist_eq hb]
  cases hf : [token].find? (fun t => !(dict_contains g.tokens t)) with
  | some t => left; rfl
  | none =>
    dsimp only
    cases hap : check_has_ap g token g.heal_self_cost with
    | some e => left; rfl
    | none =>
      dsimp only
      cases hlc : check_life_cap g token 1 with
      | some e => left; rfl
      | none =>
        obtain ⟨info, hget, _⟩ := check_has_ap_none hap
        have hw := wf_token_facts hall hget
        exact heal_execute_atomic hget hw.2.2.2.1

theorem upgrade_command_atomic {g : Game} {n : Nat} (hb : g.board_size = some n)
    (hall : g.tokens.all (wf_token g) = true) (token : String) :
    (upgrade_token_command g token).1 = g ∨
      ∃ m, (upgrade_token_command g token).2 = Except.ok m := by
  unfold upgrade_token_command
  rw [check_tokens_exist_eq hb]
  cases hf : [token].find? (fun t => !(dict_contains g.tokens t)) with
  | some t => left; rfl
  | none =>
    dsimp only
    cases hap : check_has_ap g token g.upgrade_cost with
    | some e => left; rfl
    | none =>
      obtain ⟨info, hget, _⟩ := check_has_ap_none hap
      have hw := wf_token_facts hall hget
      exact upgrade_execute_atomic hget hw.1 hw.2.1 hw.2.2.2.1

theorem gift_heart_command_atomic {g : Game} {n : Nat} (hb : g.board_size = some n)
    (hall : g.tokens.all (wf_token g) = true) (t1 t2 : String) :
    (gift_heart_command g t1 t2).1 = g ∨
      ∃ m, (gift_heart_command g t1 t2).2 = Except.ok m := by
  unfold gift_heart_command
  rw [check_tokens_exist_eq hb]
  cases hf : [t1, t2].find? (fun t => !(dict_contains g.tokens t)) with
  | some t => left; rfl
  | none =>
    dsimp only
    cases hap : check_has_ap g t1 g.gift_heart_cost with
    | some e => left; rfl
    | none =>
      dsimp only
      rcases hcr : check_range g t1 t2 (some 1) with ⟨g2, o2⟩
      have hg2 : (check_range g t1 t2 (some 1)).1 = g := check_range_fst hb t1 t2 (some 1)
      rw [hcr] at hg2
      rw [show g2 = g from hg2]
      cases o2 with
      | some e =>
        left
        rfl
      | none =>
        dsimp only
        cases hlc1 : check_life_cap g t1 (-1) with
        | some e => left; rfl
        | none =>
          try dsimp only
          cases hlc2 : check_life_cap g t2 1 with
          | some e => left; rfl
          | none =>
            obtain ⟨i1, hget1, _⟩ := check_has_ap_none hap
            have hw := wf_token_facts hall hget1
            show (gift_heart_execute g t1 t2).1 = g ∨ ∃ m, (gift_heart_execute g t1 t2).2 = Except.ok m
            exact gift_heart_execute_atomic hget1 hw.2.2.2.1

theorem capture_command_atomic {g : Game} {n : Nat} (hb : g.board_size = some n)
    (hall : g.tokens.all (wf_token g) = true) (t1 t2 : String) :
    (capture_command g t1 t2).1 = g ∨
      ∃ m, (capture_command g t1 t2).2 = Except.ok m := by
  unfold capture_command
  rw [check_tokens_exist_eq hb]
  cases hf : [t1, t2].find? (fun t => !(dict_contains g.tokens t)) with
  | some t => left; rfl
  | none =>
    dsimp only
    cases hap : check_has_ap g t1 g.capture_cost with
    | some e => left; rfl
    | none =>
      dsimp only
      rcases hcr : check_range g t1 t2 (some 1) with ⟨g2, o2⟩
      have hg2 : (check_range g t1 t2 (some 1)).1 = g := check_range_fst hb t1 t2 (some 1)
      rw [hcr] at hg2
      rw [show g2 = g from hg2]
      cases o2 with
      | some e =>
        left
        rfl
      | none =>
        dsimp only
        by_cases heq : (get_owner g t1 == get_owner g t2) = true
        · rw [if_pos heq]
          left
          rfl
        · rw [if_neg heq]
          by_cases hlf : get_life g t2 > 0
          · rw [if_pos hlf]
            left
            rfl
          · rw [if_neg hlf]
            obtain ⟨i1, hget1, _⟩ := check_has_ap_none hap
            have hw1 := wf_token_facts hall hget1
            have hc2 : dict_contains g.tokens t2 = true :=
              find_none_contains hf t2 (by simp)
            obtain ⟨i2, hget2⟩ := dict_contains_exists hc2
            have hw2 := wf_token_facts hall hget2
            have hne12 : (t1 == t2) = false := by
              rw [beq_eq_false_iff_ne]
              intro hh
              subst hh
              exact heq (beq_self_eq_true _)
            have hneo : (get_owner g t1 == get_owner g t2) = false := by
              rw [Bool.not_eq_true] at heq
              exact heq
            show (capture_execute g t1 t2 (get_owner g t1) (get_owner g t2)).1 = g ∨ ∃ m, (capture_execute g t1 t2 (get_owner g t1) (get_owner g t2)).2 = Except.ok m
            refine capture_execute_atomic hget1 (get_owner_eq hget1).symm hne12 hneo ?_ ?_ ?_
            · rw [get_owner_eq hget1]
              exact hw1.2.2.2.2
            · rw [get_owner_eq hget2]
              exact hw2.2.2.2.2
            · rw [get_owner_eq hget1]
              exact hw1.2.2.2.1

theorem vote_command_atomic {g : Game} {n : Nat} (hb : g.board_size = some n)
    (player : String) (token : Option String)
    (hpri : g.priority.contains player = true) :
    (jury_vote_command g player token).1 = g ∨
      ∃ m, (jury_vote_command g player token).2 = Except.ok m := by
  unfold jury_vote_command
  by_cases hel : (is_player_eliminated g player) = true
  · rw [if_neg (not_not_intro hel), force_sized hb]
    dsimp only
    cases token with
    | none => left; rfl
    | some tok =>
      dsimp only
      by_cases hct : dict_contains g.tokens tok = true
      · rw [if_neg (not_not_intro hct)]
        by_cases hlz : (get_life g tok == 0) = true
        · rw [if_pos hlz]
          left
          rfl
        · rw [if_neg hlz]
          obtain ⟨g', hg'⟩ := @vote_execute_ok g player tok hpri
          rw [hg']
          right
          exact ⟨_, rfl⟩
      · rw [if_pos hct]
        left
        rfl
  · rw [if_pos hel]
    left
    rfl

theorem add_player_atomic (g : Game) (name : String) :
    (add_player_command g name).1 = g ∨
      ∃ m, (add_player_command g name).2 = Except.ok m := by
  unfold add_player_command
  by_cases hc : dict_contains g.players name = true
  · rw [if_pos hc]
    left
    rfl
  · rw [if_neg hc]
    right
    exact ⟨_, rfl⟩

theorem seed_command_atomic (g : Game) (seed : Option Int) :
    (set_random_seed_command g seed).1 = g ∨
      ∃ m, (set_random_seed_command g seed).2 = Except.ok m := by
  right
  exact ⟨_, rfl⟩

theorem upgrade_cost_atomic (g : Game) (cost : Int) :
    (set_upgrade_cost_command g cost).1 = g ∨
      ∃ m, (set_upgrade_cost_command g cost).2 = Except.ok m := by
  unfold set_upgrade_cost_command
  by_cases hc : cost < 1
  · rw [if_pos hc]; left; rfl
  · rw [if_neg hc]; right; exact ⟨_, rfl⟩

theorem heal_cost_atomic (g : Game) (cost : Int) :
    (set_heal_self_cost_command g cost).1 = g ∨
      ∃ m, (set_heal_self_cost_command g cost).2 = Except.ok m := by
  unfold set_heal_self_cost_command
  by_cases hc : cost < 1
  · rw [if_pos hc]; left; rfl
  · rw [if_neg hc]; right; exact ⟨_, rfl⟩

theorem gift_cost_atomic (g : Game) (cost : Int) :
    (set_gift_heart_cost_command g cost).1 = g ∨
      ∃ m, (set_gift_heart_cost_command g cost).2 = Except.ok m := by
  unfold set_gift_heart_cost_command
  by_cases hc : cost < 1
  · rw [if_pos hc]; left; rfl
  · rw [if_neg hc]; right; exact ⟨_, rfl⟩

theorem length_flatMap_const {α β : Type} (m : Nat) :
    ∀ (l : List α) (f : α → List β), (∀ a ∈ l, (f a).length = m) →
    (l.flatMap f).length = l.length * m := by
  intro l
  induction l with
  | nil => intro f _; simp
  | cons a as ih =>
    intro f h
    rw [List.flatMap_cons, List.length_append, h a (List.mem_cons_self _ _),
      ih f (fun b hb => h b (List.mem_cons_of_mem _ hb))]
    simp only [List.length_cons]
    ring

theorem all_positions_length (n : Nat) : (all_positions n).length = n * n := by
  unfold all_positions
  rw [length_flatMap_const n _ _ (fun a _ => by simp)]
  simp

theorem pick_at_some {α : Type} :
    ∀ (l : List α) (i : Nat), i < l.length →
    ∃ x rest, pick_at l i = some (x, rest) ∧ rest.length + 1 = l.length := by
  intro l
  induction l with
  | nil => intro i hi; simp at hi
  | cons a as ih =>
    intro i hi
    cases i with
    | zero => exact ⟨a, as, rfl, by simp⟩
    | succ j =>
      have hj : j < as.length := by simpa using hi
      obtain ⟨x, rest, hp, hlen⟩ := ih j hj
      refine ⟨x, a :: rest, ?_, ?_⟩
      · unfold pick_at
        rw [hp]
        rfl
      · simp only [List.length_cons]
        omega

theorem shuffle_go_length {α : Type} :
    ∀ (n : Nat) (l : List α) (s : Nat), l.length = n →
    ((shuffle_go n l s).1).length = n := by
  intro n
  induction n with
  | zero => intro l s h; unfold shuffle_go; simpa using h
  | succ k ih =>
    intro l s h
    unfold shuffle_go
    have hidx : (lcg_next s) % (k + 1) < l.length := by
      rw [h]
      exact Nat.mod_lt _ (Nat.succ_pos k)
    obtain ⟨x, rest, hp, hlen⟩ := pick_at_some l _ hidx
    dsimp only
    rw [hp]
    dsimp only
    have hrest : rest.length = k := by omega
    rw [List.length_cons, ih rest (lcg_next s) hrest]

theorem shuffle_list_length {α : Type} (l : List α) (s : Nat) :
    ((shuffle_list l s).1).length = l.length :=
  shuffle_go_length l.length l s rfl

theorem dict_set_length_le {α : Type} (d : List (String × α)) (k : String) (v : α) :
    (dict_set d k v).length ≤ d.length + 1 := by
  unfold dict_set
  by_cases h : dict_contains d k = true
  · rw [if_pos h]
    simp
  · rw [if_neg h]
    simp

theorem fold_dict_set_length_le (f : String × String → Token) :
    ∀ (pairs : List (String × String)) (acc : List (String × Token)),
    (pairs.foldl (fun d p => dict_set d p.1 (f p)) acc).length ≤ acc.length + pairs.length := by
  intro pairs
  induction pairs with
  | nil => intro acc; simp
  | cons p ps ih =>
    intro acc
    have h1 := ih (dict_set acc p.1 (f p))
    have h2 := dict_set_length_le acc p.1 (f p)
    simp only [List.foldl_cons, List.length_cons]
    omega

theorem mem_dict_set {α : Type} {d : List (String × α)} {k : String} {v : α}
    {q : String × α} (h : q ∈ dict_set d k v) : q = (k, v) ∨ q ∈ d := by
  unfold dict_set at h
  by_cases hc : dict_contains d k = true
  · rw [if_pos hc] at h
    obtain ⟨q0, hq0, hmap⟩ := List.mem_map.mp h
    by_cases hk : (q0.1 == k) = true
    · rw [if_pos hk] at hmap
      exact Or.inl hmap.symm
    · rw [if_neg hk] at hmap
      subst hmap
      exact Or.inr hq0
  · rw [if_neg hc] at h
    rcases List.mem_append.mp h with h | h
    · exact Or.inr h
    · simp at h
      exact Or.inl (by rw [h])

theorem fold_dict_set_prop (f : String × String → Token) (P : String × Token → Prop) :
    ∀ (pairs : List (String × String)) (acc : List (String × Token)),
    (∀ q ∈ acc, P q) → (∀ p ∈ pairs, P (p.1, f p)) →
    ∀ q ∈ pairs.foldl (fun d p => dict_set d p.1 (f p)) acc, P q := by
  intro pairs
  induction pairs with
  | nil => intro acc hacc _ q hq; exact hacc q hq
  | cons p ps ih =>
    intro acc hacc hpairs q hq
    simp only [List.foldl_cons] at hq
    refine ih (dict_set acc p.1 (f p)) ?_ ?_ q hq
    · intro q0 hq0
      rcases mem_dict_set hq0 with h | h
      · rw [h]
        exact hpairs p (List.mem_cons_self _ _)
      · exact hacc q0 h
    · intro p0 hp0
      exact hpairs p0 (List.mem_cons_of_mem _ hp0)

theorem assign_positions_ok :
    ∀ (toks : List String) (g : Game) (ps : List (Int × Int)),
    toks.length ≤ ps.length →
    ∃ g', assign_positions g ps toks = (g', Except.ok "New token positions assigned") := by
  intro toks
  induction toks with
  | nil =>
    intro g ps _
    cases ps with
    | nil => exact ⟨g, rfl⟩
    | cons p pp => exact ⟨g, rfl⟩
  | cons t ts ih =>
    intro g ps hlen
    cases ps with
    | nil => simp at hlen
    | cons p pp =>
      unfold assign_positions
      exact ih _ pp (by simpa using hlen)

theorem sort_strings_length (l : List String) : (sort_strings l).length = l.length :=
  List.length_insertionSort _ l

theorem init_key_owner_pairs_eq {g g' : Game} (h : g.players = g'.players) :
    init_key_owner_pairs g = init_key_owner_pairs g' := by
  unfold init_key_owner_pairs
  rw [h]

theorem set_random_token_position_ok {g : Game} {m : Nat} {toks : List String}
    (hb : g.board_size = some m) (hm : 1 ≤ m)
    (hnone : ∀ q ∈ g.tokens, q.2.position = none)
    (hlen : toks.length ≤ m * m) :
    ∃ g', set_random_token_position g toks =
      (g', Except.ok "New token positions assigned") := by
  unfold set_random_token_position
  rw [hb]
  dsimp only
  have hex : g.tokens.filterMap (fun p => p.2.position) = [] := by
    rw [List.filterMap_eq_nil]
    exact hnone
  rw [hex]
  have hfil : (all_positions m).filter (fun p => !(([] : List (Int × Int)).contains p)) =
      all_positions m := by
    rw [List.filter_eq_self]
    intro a _
    rfl
  rw [hfil]
  have hlenall : (all_positions m).length = m * m := all_positions_length m
  have hne : (all_positions m).isEmpty = false := by
    cases hv : all_positions m with
    | nil => rw [hv] at hlenall; simp at hlenall; omega
    | cons a l => rfl
  rw [if_neg (by rw [hne]; exact Bool.false_ne_true)]
  try dsimp only
  refine assign_positions_ok toks _ _ ?_
  rw [List.length_reverse]
  have := shuffle_list_length (all_positions m) g.rng
  omega

theorem init_tokens_ok {g : Game} {m : Nat}
    (hb : g.board_size = some m) (hm : 1 ≤ m)
    (hcnt : (init_key_owner_pairs g).length ≤ m * m) :
    ∃ g', init_tokens g = (g', none) := by
  unfold init_tokens
  dsimp only
  set G1 : Game := { g with turn_counter := some (0 : Int), tokens := [] } with hG1
  set G2 : Game := { G1 with tokens := (init_key_owner_pairs G1).foldl (fun (d : List (String × Token)) (p : String × String) => dict_set d p.1 (default_token_for G1 p.2)) [] } with hG2
  have hpairs : init_key_owner_pairs G1 = init_key_owner_pairs g :=
    init_key_owner_pairs_eq rfl
  have hbb : G2.board_size = some m := hb
  rw [hbb]
  dsimp only
  have hnone : ∀ q ∈ G2.tokens, q.2.position = none := by
    intro q hq
    refine fold_dict_set_prop (fun p => default_token_for G1 p.2)
      (fun q => q.2.position = none) (init_key_owner_pairs G1) [] ?_ ?_ q hq
    · intro q0 hq0
      simp at hq0
    · intro p0 _
      rfl
  have hlen : (sort_strings (G2.tokens.map (fun p => p.1))).length ≤ m * m := by
    rw [sort_strings_length, List.length_map]
    have hfold := fold_dict_set_length_le (fun p => default_token_for G1 p.2)
      (init_key_owner_pairs G1) []
    rw [hpairs] at hfold
    simp only [List.length_nil, Nat.zero_add] at hfold
    calc G2.tokens.length ≤ (init_key_owner_pairs g).length := hfold
    _ ≤ m * m := hcnt
  obtain ⟨g', hg'⟩ := set_random_token_position_ok hbb hm hnone hlen
  rw [hg']
  exact ⟨g', rfl⟩

theorem board_size_command_atomic {g : Game} (size? : Option Int) (lock : Bool)
    (hcnt : (init_key_owner_pairs g).length = g.tokens.length) :
    (set_board_size_command g size? lock).1 = g ∨
      ∃ m, (set_board_size_command g size? lock).2 = Except.ok m := by
  unfold set_board_size_command
  by_cases hlock : g.board_size_locked = true
  · rw [if_pos hlock]
    left
    rfl
  · rw [if_neg hlock]
    dsimp only
    set SZ : Int := size?.getD (get_default_board_size g) with hSZ
    by_cases hguard : (SZ * SZ ≤ (g.tokens.length : Int) ∨ SZ < (g.minimum_board_size : Int))
    · rw [if_pos hguard]
      left
      rfl
    · rw [if_neg hguard]
      push_neg at hguard
      obtain ⟨hg1, hg2⟩ := hguard
      have hszpos : (1 : Int) ≤ SZ := by
        by_contra hcon
        push_neg at hcon
        have hSZ0 : SZ = 0 := by omega
        rw [hSZ0] at hg1
        simp at hg1
        omega
      have h0 : (0 : Int) ≤ SZ := by omega
      have hcast : ((SZ.toNat * SZ.toNat : Nat) : Int) = SZ * SZ := by
        push_cast
        rw [Int.toNat_of_nonneg h0]
      have hlenle : g.tokens.length ≤ SZ.toNat * SZ.toNat := by
        have h1 : (g.tokens.length : Int) ≤ ((SZ.toNat * SZ.toNat : Nat) : Int) := by
          rw [hcast]
          exact le_of_lt hg1
        exact_mod_cast h1
      set G2 : Game := { g with board_size := some SZ.toNat, board_size_locked := lock, rng := match g.random_seed with | some s => seed_rng s | none => g.rng } with hG2
      have hb2 : G2.board_size = some SZ.toNat := rfl
      have hm2 : 1 ≤ SZ.toNat := by omega
      have hcnt2 : (init_key_owner_pairs G2).length ≤ SZ.toNat * SZ.toNat := by
        rw [@init_key_owner_pairs_eq G2 g rfl, hcnt]
        exact hlenle
      obtain ⟨g', hg'⟩ := init_tokens_ok hb2 hm2 hcnt2
      rw [hg']
      right
      exact ⟨_, rfl⟩

/-- C1 (amended): for every command other than TOKEN registration, and for
votes cast by a registered player, failure leaves the state unchanged: on a
well-formed sized state, every handler either returns the state it was given
or succeeds.  (The original claim is refuted by c1_counterexample: TOKEN on a
full board registers the token and then fails position assignment, and the
lazy board sizing inside validation mutates an unsized state.) -/
theorem c1_commands_atomic_amended (g : Game) (c : GameCommand) (e : GameErr)
    (hwf : wf g = true)
    (hnotadd : ∀ t o, c ≠ GameCommand.TOKEN t o)
    (hvote : ∀ p t, c = GameCommand.vote p t → g.priority.contains p = true)
    (herr : (execute_command g c).2 = Except.error e) :
    (execute_command g c).1 = g := by
  obtain ⟨⟨n, hb⟩, ⟨tc, ht⟩, hall, hcnt⟩ := wf_parts hwf
  cases c with
  | next_turn =>
    dsimp only [execute_command] at herr ⊢
    rcases next_turn_atomic hb ht with h | ⟨m, hm⟩
    · exact h
    · rw [hm] at herr
      exact Except.noConfusion herr
  | move t dx dy =>
    dsimp only [execute_command] at herr ⊢
    rcases move_command_atomic hb hall t dx dy with h | ⟨m, hm⟩
    · exact h
    · rw [hm] at herr
      exact Except.noConfusion herr
  | gift t1 t2 np =>
    dsimp only [execute_command] at herr ⊢
    rcases gift_command_atomic hb hall t1 t2 np with h | ⟨m, hm⟩
    · exact h
    · rw [hm] at herr
      exact Except.noConfusion herr
  | shoot t1 t2 =>
    dsimp only [execute_command] at herr ⊢
    rcases shoot_command_atomic hb hall t1 t2 with h | ⟨m, hm⟩
    · exact h
    · rw [hm] at herr
      exact Except.noConfusion herr
  | heal t =>
    dsimp only [execute_command] at herr ⊢
    rcases heal_command_atomic hb hall t with h | ⟨m, hm⟩
    · exact h
    · rw [hm] at herr
      exact Except.noConfusion herr
  | upgrade t =>
    dsimp only [execute_command] at herr ⊢
    rcases upgrade_command_atomic hb hall t with h | ⟨m, hm⟩
    · exact h
    · rw [hm] at herr
      exact Except.noConfusion herr
  | gift_heart t1 t2 =>
    dsimp only [execute_command] at herr ⊢
    rcases gift_heart_command_atomic hb hall t1 t2 with h | ⟨m, hm⟩
    · exact h
    · rw [hm] at herr
      exact Except.noConfusion herr
  | capture t1 t2 =>
    dsimp only [execute_command] at herr ⊢
    rcases capture_command_atomic hb hall t1 t2 with h | ⟨m, hm⟩
    · exact h
    · rw [hm] at herr
      exact Except.noConfusion herr
  | vote p t =>
    dsimp only [execute_command] at herr ⊢
    rcases vote_command_atomic hb p t (hvote p t rfl) with h | ⟨m, hm⟩
    · exact h
    · rw [hm] at herr
      exact Except.noConfusion herr
  | PLAYER name =>
    dsimp only [execute_command] at herr ⊢
    rcases add_player_atomic g name with h | ⟨m, hm⟩
    · exact h
    · rw [hm] at herr
      exact Except.noConfusion herr
  | TOKEN t o =>
    exact absurd rfl (hnotadd t o)
  | RANDOM_SEED s =>
    dsimp only [execute_command] at herr ⊢
    rcases seed_command_atomic g s with h | ⟨m, hm⟩
    · exact h
    · rw [hm] at herr
      exact Except.noConfusion herr
  | BOARD_SIZE s =>
    dsimp only [execute_command] at herr ⊢
    rcases board_size_command_atomic s true hcnt with h | ⟨m, hm⟩
    · exact h
    · rw [hm] at herr
      exact Except.noConfusion herr
  | UPGRADE_COST k =>
    dsimp only [execute_command] at herr ⊢
    rcases upgrade_cost_atomic g k with h | ⟨m, hm⟩
    · exact h
    · rw [hm] at herr
      exact Except.noConfusion herr
  | HEAL_SELF_COST k =>
    dsimp only [execute_command] at herr ⊢
    rcases heal_cost_atomic g k with h | ⟨m, hm⟩
    · exact h
    · rw [hm] at herr
      exact Except.noConfusion herr
  | GIFT_HEART_COST k =>
    dsimp only [execute_command] at herr ⊢
    rcases gift_cost_atomic g k with h | ⟨m, hm⟩
    · exact h
    · rw [hm] at herr
      exact Except.noConfusion herr

/-- Witness for the amended C1 theorem: shooting with an unregistered token Z
fails with a TokenError and provably leaves the concrete state untouched. -/
theorem c1_commands_atomic_amended_witness :
    wf game_dead_target = true ∧
    (execute_command game_dead_target (GameCommand.shoot "Z" "B")).2 =
      Except.error (GameErr.TokenError "Z") ∧
    (execute_command game_dead_target (GameCommand.shoot "Z" "B")).1 =
      game_dead_target :=
  ⟨by decide, by decide,
    c1_commands_atomic_amended game_dead_target (GameCommand.shoot "Z" "B")
      (GameErr.TokenError "Z") (by decide)
      (fun t o h => GameCommand.noConfusion h)
      (fun p t h => GameCommand.noConfusion h)
      (by decide)⟩

theorem mem_dict_modify {α : Type} {d : List (String × α)} {k : String} {f : α → α}
    {q : String × α} (h : q ∈ dict_modify d k f) :
    ∃ q0 ∈ d, ((q0.1 == k) = false ∧ q = q0) ∨ ((q0.1 == k) = true ∧ q = (q0.1, f q0.2)) := by
  unfold dict_modify at h
  obtain ⟨q0, hq0, hmap⟩ := List.mem_map.mp h
  refine ⟨q0, hq0, ?_⟩
  by_cases hk : (q0.1 == k) = true
  · rw [if_pos hk] at hmap
    exact Or.inr ⟨hk, hmap.symm⟩
  · rw [if_neg hk] at hmap
    exact Or.inl ⟨Bool.not_eq_true _ ▸ hk, hmap.symm⟩

theorem mem_sort_strings {a : String} {l : List String} (h : a ∈ l) : a ∈ sort_strings l :=
  ((List.perm_insertionSort _ l).mem_iff).mpr h

theorem assign_positions_turn :
    ∀ (toks : List String) (g : Game) (ps : List (Int × Int)) (g' : Game)
      (r : Except GameErr String),
    assign_positions g ps toks = (g', r) → g'.turn_counter = g.turn_counter := by
  intro toks
  induction toks with
  | nil =>
    intro g ps g' r h
    cases ps with
    | nil =>
      injection h with h1 h2
      rw [← h1]
    | cons p pp =>
      injection h with h1 h2
      rw [← h1]
  | cons t ts ih =>
    intro g ps g' r h
    cases ps with
    | nil =>
      injection h with h1 h2
      rw [← h1]
    | cons p pp =>
      have h' : assign_positions { g with tokens := dict_modify g.tokens t (fun i => { i with position := some p }) } pp ts = (g', r) := h
      exact ih { g with tokens := dict_modify g.tokens t (fun i => { i with position := some p }) } pp g' r h'

theorem assign_positions_preserves (P : String × Token → Prop)
    (hP : ∀ k i p, P (k, i) → P (k, { i with position := some p })) :
    ∀ (toks : List String) (g : Game) (ps : List (Int × Int)) (g' : Game)
      (r : Except GameErr String),
    assign_positions g ps toks = (g', r) → (∀ q ∈ g.tokens, P q) →
    ∀ q ∈ g'.tokens, P q := by
  intro toks
  induction toks with
  | nil =>
    intro g ps g' r h hg
    cases ps with
    | nil =>
      injection h with h1 h2
      rw [← h1]
      exact hg
    | cons p pp =>
      injection h with h1 h2
      rw [← h1]
      exact hg
  | cons t ts ih =>
    intro g ps g' r h hg
    cases ps with
    | nil =>
      injection h with h1 h2
      rw [← h1]
      exact hg
    | cons p pp =>
      have h' : assign_positions { g with tokens := dict_modify g.tokens t (fun i => { i with position := some p }) } pp ts = (g', r) := h
      refine ih { g with tokens := dict_modify g.tokens t (fun i => { i with position := some p }) } pp g' r h' ?_
      intro q0 hq0
      have hq0' : q0 ∈ dict_modify g.tokens t (fun i => { i with position := some p }) := hq0
      obtain ⟨q1, hq1, hcase⟩ := mem_dict_modify hq0'
      rcases hcase with ⟨_, heq⟩ | ⟨_, heq⟩
      · rw [heq]
        exact hg q1 hq1
      · rw [heq]
        exact hP q1.1 q1.2 p (hg q1 hq1)

theorem assign_positions_assigns :
    ∀ (toks : List String) (g : Game) (ps : List (Int × Int)) (g' : Game) (msg : String),
    assign_positions g ps toks = (g', Except.ok msg) →
    ∀ q ∈ g'.tokens, q.1 ∈ toks → ∃ pos, q.2.position = some pos := by
  intro toks
  induction toks with
  | nil =>
    intro g ps g' msg h q hq hmem
    simp at hmem
  | cons t ts ih =>
    intro g ps g' msg h q hq hmem
    cases ps with
    | nil =>
      injection h with h1 h2
      exact Except.noConfusion h2
    | cons p pp =>
      have h' : assign_positions { g with tokens := dict_modify g.tokens t (fun i => { i with position := some p }) } pp ts = (g', Except.ok msg) := h
      rcases List.mem_cons.mp hmem with heq | hts
      · refine assign_positions_preserves
          (fun q => q.1 = t → ∃ pos, q.2.position = some pos)
          (fun k i p0 hPi hk => ⟨p0, rfl⟩) ts
          { g with tokens := dict_modify g.tokens t (fun i => { i with position := some p }) }
          pp g' _ h' ?_ q hq heq
        intro q0 hq0 hk0
        have hq0' : q0 ∈ dict_modify g.tokens t (fun i => { i with position := some p }) := hq0
        obtain ⟨q1, hq1, hcase⟩ := mem_dict_modify hq0'
        rcases hcase with ⟨hfalse, hq0eq⟩ | ⟨_, hq0eq⟩
        · rw [hq0eq] at hk0
          rw [beq_iff_eq.mpr hk0] at hfalse
          exact Bool.noConfusion hfalse
        · rw [hq0eq]
          exact ⟨p, rfl⟩
      · exact ih { g with tokens := dict_modify g.tokens t (fun i => { i with position := some p }) } pp g' msg h' q hq hts

theorem set_random_token_position_success {g : Game} {toks : List String} {g4 : Game}
    {msg : String}
    (h : set_random_token_position g toks = (g4, Except.ok msg)) :
    g4.turn_counter = g.turn_counter ∧
    (∀ P : String × Token → Prop,
      (∀ k i p, P (k, i) → P (k, { i with position := some p })) →
      (∀ q ∈ g.tokens, P q) → ∀ q ∈ g4.tokens, P q) ∧
    ((∀ q0 ∈ g.tokens, q0.1 ∈ toks) →
      ∀ q ∈ g4.tokens, ∃ pos, q.2.position = some pos) := by
  unfold set_random_token_position at h
  split at h
  · simp at h
  · dsimp only at h
    split at h
    · simp at h
    · refine ⟨?_, ?_, ?_⟩
      · have ht := assign_positions_turn toks _ _ _ _ h
        exact ht
      · intro P hP hg q hq
        have hp' := assign_positions_preserves P hP toks _ _ _ _ h
        exact hp' hg q hq
      · intro hkeys q hq
        have ha := assign_positions_assigns toks _ _ _ _ h
        have hk := assign_positions_preserves (fun q => q.1 ∈ toks)
          (fun k i p hPi => hPi) toks _ _ _ _ h
        exact ha q hq (hk hkeys q hq)

theorem init_tokens_success {g g3 : Game} {m : Nat}
    (hb : g.board_size = some m)
    (h : init_tokens g = (g3, none)) :
    g3.turn_counter = some (0 : Int) ∧
    ∀ q ∈ g3.tokens,
      q.2.AP = 0 ∧ q.2.life = g.life_cap ∧ q.2.life_cap = g.life_cap ∧
      q.2.range = g.action_range ∧
      (∃ pr ∈ init_key_owner_pairs g, q.1 = pr.1 ∧ q.2.owner = pr.2) ∧
      ∃ pos, q.2.position = some pos := by
  unfold init_tokens at h
  dsimp only at h
  rw [hb] at h
  dsimp only at h
  split at h
  · simp at h
  · rename_i g4 msg4 heq
    simp only [Prod.mk.injEq] at h
    obtain ⟨hg43, -⟩ := h
    subst hg43
    obtain ⟨hturn, hpres, hassign⟩ := set_random_token_position_success heq
    refine ⟨hturn, ?_⟩
    intro q hq
    have hfold := fold_dict_set_prop
      (fun p => default_token_for { g with turn_counter := some (0 : Int), tokens := ([] : List (String × Token)) } p.2)
      (fun q => q.2.AP = 0 ∧ q.2.life = g.life_cap ∧ q.2.life_cap = g.life_cap ∧
        q.2.range = g.action_range ∧
        ∃ pr ∈ init_key_owner_pairs g, q.1 = pr.1 ∧ q.2.owner = pr.2)
      (init_key_owner_pairs { g with turn_counter := some (0 : Int), tokens := ([] : List (String × Token)) })
      [] (by simp) (fun p hp => ⟨rfl, rfl, rfl, rfl, p, hp, rfl, rfl⟩)
    have hfields := hpres
      (fun q => q.2.AP = 0 ∧ q.2.life = g.life_cap ∧ q.2.life_cap = g.life_cap ∧
        q.2.range = g.action_range ∧
        ∃ pr ∈ init_key_owner_pairs g, q.1 = pr.1 ∧ q.2.owner = pr.2)
      (fun k i p hPi => hPi)
      (fun q0 hq0 => hfold q0 hq0)
      q hq
    refine ⟨hfields.1, hfields.2.1, hfields.2.2.1, hfields.2.2.2.1, hfields.2.2.2.2, ?_⟩
    refine hassign ?_ q hq
    intro q0 hq0
    exact mem_sort_strings (List.mem_map.mpr ⟨q0, hq0, rfl⟩)

theorem get_default_board_size_rng (g : Game) (r : Nat) :
    get_default_board_size { g with rng := r } = get_default_board_size g := rfl

/-- C2 (amended): a successful resize resets the turn counter to 0 and
reassigns a fresh position to every token, and — because the stored seed is
fed back to the generator first — the outcome is independent of the
generator state held before the call.  But the claim that AP, life, life_cap
and range survive the resize is refuted (c2_counterexample): init_tokens
rebuilds every token at the configured defaults, so after a successful
resize every token has AP 0, life = life_cap = the configured cap and range
= the configured action range, with its owner drawn from the player
table. -/
theorem c2_resize_rebuilds_tokens (g : Game) (size? : Option Int) (lock : Bool)
    (s : Int) (msg : String)
    (hseed : g.random_seed = some s)
    (hok : (set_board_size_command g size? lock).2 = Except.ok msg) :
    (set_board_size_command g size? lock).1.turn_counter = some (0 : Int) ∧
    (∀ q ∈ (set_board_size_command g size? lock).1.tokens,
        q.2.AP = 0 ∧ q.2.life = g.life_cap ∧ q.2.life_cap = g.life_cap ∧
        q.2.range = g.action_range ∧
        (∃ pr ∈ init_key_owner_pairs g, q.1 = pr.1 ∧ q.2.owner = pr.2) ∧
        ∃ pos, q.2.position = some pos) ∧
    ∀ r, set_board_size_command { g with rng := r } size? lock =
         set_board_size_command g size? lock := by
  have hok' := hok
  unfold set_board_size_command at hok'
  by_cases hlock : g.board_size_locked = true
  · rw [if_pos hlock] at hok'
    exact absurd hok' (by simp)
  · rw [if_neg hlock] at hok'
    dsimp only at hok'
    by_cases hguard : ((size?.getD (get_default_board_size g)) * (size?.getD (get_default_board_size g)) ≤ (g.tokens.length : Int) ∨ (size?.getD (get_default_board_size g)) < (g.minimum_board_size : Int))
    · rw [if_pos hguard] at hok'
      exact absurd hok' (by simp)
    · rw [if_neg hguard] at hok'
      split at hok'
      · exact absurd hok' (by simp)
      · rename_i g3 heq
        have hres : set_board_size_command g size? lock = (g3, Except.ok "Board size set") := by
          unfold set_board_size_command
          rw [if_neg hlock]
          dsimp only
          rw [if_neg hguard, heq]
        obtain ⟨hturn, htok⟩ := init_tokens_success rfl heq
        refine ⟨?_, ?_, ?_⟩
        · rw [hres]
          exact hturn
        · rw [hres]
          exact htok
        · intro r
          unfold set_board_size_command
          dsimp only
          rw [get_default_board_size_rng g r]
          rw [if_neg hlock, if_neg hlock, if_neg hguard, if_neg hguard, hseed]

/-- Witness for the amended C2 theorem: resizing the one-token game to 5x5
succeeds, and the theorem yields the reset turn counter on that input. -/
theorem c2_resize_rebuilds_tokens_witness :
    game_unsized.random_seed = some 0 ∧
    (set_board_size_command game_unsized (some 5) true).2 =
      Except.ok "Board size set" ∧
    (set_board_size_command game_unsized (some 5) true).1.turn_counter =
      some (0 : Int) :=
  ⟨by decide, by decide,
    (c2_resize_rebuilds_tokens game_unsized (some 5) true 0 "Board size set"
      (by decide) (by decide)).1⟩

theorem spend_ap_jury {g g1 : Game} {t : String} {a : Int} {o : Option GameErr}
    (h : spend_ap g t a = (g1, o)) : g1.jury = g.jury := by
  unfold spend_ap at h
  split at h
  · injection h with h1 h2
    rw [← h1]
  · split at h
    · injection h with h1 h2
      rw [← h1]
    · injection h with h1 h2
      rw [← h1]

theorem increase_ap_jury {g g1 : Game} {t : String} {a : Int} {o : Option GameErr}
    (h : increase_ap g t a = (g1, o)) : g1.jury = g.jury := by
  unfold increase_ap at h
  split at h
  · injection h with h1 h2
    rw [← h1]
  · injection h with h1 h2
    rw [← h1]

theorem increase_life_jury {g g1 : Game} {t : String} {a : Int} {o : Option GameErr}
    (h : increase_life g t a = (g1, o)) : g1.jury = g.jury := by
  unfold increase_life at h
  split at h
  · injection h with h1 h2
    rw [← h1]
  · injection h with h1 h2
    rw [← h1]

theorem update_priority_jury {g g1 : Game} {p : String} {o : Option GameErr}
    (h : update_priority g p = (g1, o)) : g1.jury = g.jury := by
  unfold update_priority at h
  split at h
  · injection h with h1 h2
    rw [← h1]
  · injection h with h1 h2
    rw [← h1]

theorem transfer_ap_jury {g g1 : Game} {t1 t2 : String} {a : Int} {o : Option GameErr}
    (h : transfer_ap g t1 t2 a = (g1, o)) : g1.jury = g.jury := by
  unfold transfer_ap at h
  split at h
  · rename_i ga e heq
    injection h with h1 h2
    rw [← h1]
    exact spend_ap_jury heq
  · rename_i ga heq
    exact (increase_ap_jury h).trans (spend_ap_jury heq)

theorem increase_life_cap_jury (g : Game) (t : String) :
    (increase_life_cap g t).jury = g.jury := rfl

theorem increase_range_jury (g : Game) (t : String) :
    (increase_range g t).jury = g.jury := rfl

theorem move_execute_jury (g : Game) (token : String) (x y : Int) :
    (move_execute g token x y).1.jury = g.jury := by
  unfold move_execute
  dsimp only
  split
  · rename_i g3 e heq
    have h1 := spend_ap_jury heq
    exact h1
  · rename_i g3 heq
    have h1 := spend_ap_jury heq
    split
    · rename_i g4 e heq2
      have h2 := update_priority_jury heq2
      exact h2.trans h1
    · rename_i g4 heq2
      have h2 := update_priority_jury heq2
      exact h2.trans h1

theorem gift_execute_jury (g : Game) (t1 t2 : String) (np : Int) :
    (gift_execute g t1 t2 np).1.jury = g.jury := by
  unfold gift_execute
  split
  · rename_i g1 e heq
    have h1 := spend_ap_jury heq
    exact h1
  · rename_i g1 heq
    have h1 := spend_ap_jury heq
    split
    · rename_i g2 e heq2
      have h2 := increase_ap_jury heq2
      exact h2.trans h1
    · rename_i g2 heq2
      have h2 := increase_ap_jury heq2
      split
      · rename_i g3 e heq3
        have h3 := update_priority_jury heq3
        exact (h3.trans h2).trans h1
      · rename_i g3 heq3
        have h3 := update_priority_jury heq3
        exact (h3.trans h2).trans h1

theorem shoot_execute_jury (g : Game) (t1 t2 : String) :
    (shoot_execute g t1 t2).1.jury = g.jury := by
  unfold shoot_execute
  split
  · rename_i g1 e heq
    have h1 := spend_ap_jury heq
    exact h1
  · rename_i g1 heq
    have h1 := spend_ap_jury heq
    dsimp only
    split
    · rename_i g3 e heq2
      have h2 := update_priority_jury heq2
      exact h2.trans h1
    · rename_i g3 heq2
      have h2 := update_priority_jury heq2
      split
      · split
        · rename_i g4 e heq3
          have h3 := transfer_ap_jury heq3
          exact (h3.trans h2).trans h1
        · rename_i g4 heq3
          have h3 := transfer_ap_jury heq3
          exact (h3.trans h2).trans h1
      · exact h2.trans h1

theorem heal_execute_jury (g : Game) (token : String) :
    (heal_execute g token).1.jury = g.jury := by
  unfold heal_execute
  split
  · rename_i g1 e heq
    have h1 := spend_ap_jury heq
    exact h1
  · rename_i g1 heq
    have h1 := spend_ap_jury heq
    dsimp only
    split
    · rename_i g3 e heq2
      have h2 := update_priority_jury heq2
      exact h2.trans h1
    · rename_i g3 heq2
      have h2 := update_priority_jury heq2
      exact h2.trans h1

theorem upgrade_execute_jury (g : Game) (token : String) :
    (upgrade_execute g token).1.jury = g.jury := by
  unfold upgrade_execute
  split
  · rename_i g1 e heq
    have h1 := spend_ap_jury heq
    exact h1
  · rename_i g1 heq
    have h1 := spend_ap_jury heq
    dsimp only
    split
    · rename_i g3 e heq2
      have h2 := increase_life_jury heq2
      have h2a : (increase_life_cap g1 token).jury = g1.jury := rfl
      exact (h2.trans h2a).trans h1
    · rename_i g3 heq2
      have h2 := increase_life_jury heq2
      have h2a : (increase_life_cap g1 token).jury = g1.jury := rfl
      split
      · rename_i g5 e heq3
        have h3 := update_priority_jury heq3
        have h3a : (increase_range g3 token).jury = g3.jury := rfl
        exact (((h3.trans h3a).trans h2).trans h2a).trans h1
      · rename_i g5 heq3
        have h3 := update_priority_jury heq3
        have h3a : (increase_range g3 token).jury = g3.jury := rfl
        exact (((h3.trans h3a).trans h2).trans h2a).trans h1

theorem apply_jury_bonus_jury :
    ∀ (l : List String) (g : Game), (apply_jury_bonus g l).jury = g.jury := by
  intro l
  induction l with
  | nil => intro g; rfl
  | cons pl rest ih =>
    intro g
    unfold apply_jury_bonus
    dsimp only
    rw [ih]
    split
    · rfl
    · split
      · rfl
      · split
        · rfl
        · rfl

theorem assign_positions_jury :
    ∀ (toks : List String) (g : Game) (ps : List (Int × Int)) (g' : Game)
      (r : Except GameErr String),
    assign_positions g ps toks = (g', r) → g'.jury = g.jury := by
  intro toks
  induction toks with
  | nil =>
    intro g ps g' r h
    cases ps with
    | nil =>
      injection h with h1 h2
      rw [← h1]
    | cons p pp =>
      injection h with h1 h2
      rw [← h1]
  | cons t ts ih =>
    intro g ps g' r h
    cases ps with
    | nil =>
      injection h with h1 h2
      rw [← h1]
    | cons p pp =>
      have h' : assign_positions { g with tokens := dict_modify g.tokens t (fun i => { i with position := some p }) } pp ts = (g', r) := h
      have := ih { g with tokens := dict_modify g.tokens t (fun i => { i with position := some p }) } pp g' r h'
      exact this

theorem set_random_token_position_jury {g g' : Game} {toks : List String}
    {r : Except GameErr String}
    (h : set_random_token_position g toks = (g', r)) : g'.jury = g.jury := by
  unfold set_random_token_position at h
  split at h
  · injection h with h1 h2
    rw [← h1]
  · dsimp only at h
    split at h
    · injection h with h1 h2
      rw [← h1]
    · have := assign_positions_jury toks _ _ _ _ h
      exact this

theorem init_tokens_jury {g g3 : Game} {o : Option GameErr}
    (h : init_tokens g = (g3, o)) : g3.jury = g.jury := by
  unfold init_tokens at h
  dsimp only at h
  split at h
  · injection h with h1 h2
    rw [← h1]
  · split at h
    · rename_i g4 e heq
      injection h with h1 h2
      rw [← h1]
      have := set_random_token_position_jury heq
      exact this
    · rename_i g4 msg heq
      injection h with h1 h2
      rw [← h1]
      have := set_random_token_position_jury heq
      exact this

theorem set_random_seed_jury (g : Game) (seed : Option Int) :
    (set_random_seed g seed).1.jury = g.jury := by
  unfold set_random_seed
  split
  rename_i g1 msg heq
  split at heq
  · injection heq with h1 h2
    rw [← h1]
  · split at heq
    · injection heq with h1 h2
      rw [← h1]
    · injection heq with h1 h2
      rw [← h1]

theorem board_size_command_jury (g : Game) (size? : Option Int) (lock : Bool) :
    (set_board_size_command g size? lock).1.jury = g.jury := by
  unfold set_board_size_command
  split
  · rfl
  · dsimp only
    split
    · rfl
    · split
      · rename_i g3 e heq
        have := init_tokens_jury heq
        exact this
      · rename_i g3 heq
        have := init_tokens_jury heq
        exact this

theorem next_turn_jury {g : Game} (n : Nat) (hb : g.board_size = some n) :
    (give_ap_to_all_command g).1.jury = g.jury := by
  unfold give_ap_to_all_command
  split
  · rfl
  · rw [force_sized hb]
    dsimp only
    split
    · rfl
    · dsimp only
      rw [apply_jury_bonus_jury]

theorem move_command_jury {g : Game} (n : Nat) (hb : g.board_size = some n)
    (token : String) (dx dy : Int) :
    (move_command g token dx dy).1.jury = g.jury := by
  unfold move_command
  rw [check_tokens_exist_eq hb]
  cases hf : [token].find? (fun t => !(dict_contains g.tokens t)) with
  | some t => rfl
  | none =>
    dsimp only
    split
    · rfl
    · split
      · rfl
      · split
        · rfl
        · try dsimp only
          split
          · rfl
          · rw [hb]
            dsimp only
            split
            · rfl
            · split
              · rfl
              · split
                · rfl
                · split
                  · rfl
                  · exact move_execute_jury g token _ _

theorem gift_command_jury {g : Game} (n : Nat) (hb : g.board_size = some n)
    (t1 t2 : String) (np : Int) :
    (gift_command g t1 t2 np).1.jury = g.jury := by
  unfold gift_command
  rw [check_tokens_exist_eq hb]
  cases hf : [t1, t2].find? (fun t => !(dict_contains g.tokens t)) with
  | some t => rfl
  | none =>
    dsimp only
    split
    · rfl
    · split
      · rename_i g2 e heq
        have h2 := check_range_fst hb t1 t2 none
        rw [heq] at h2
        have h2' : g2 = g := h2
        rw [h2']
      · rename_i g2 heq
        have h2 := check_range_fst hb t1 t2 none
        rw [heq] at h2
        have h2' : g2 = g := h2
        rw [h2']
        exact gift_execute_jury g t1 t2 np

theorem shoot_command_jury {g : Game} (n : Nat) (hb : g.board_size = some n)
    (t1 t2 : String) :
    (shoot_command g t1 t2).1.jury = g.jury := by
  unfold shoot_command
  rw [check_tokens_exist_eq hb]
  cases hf : [t1, t2].find? (fun t => !(dict_contains g.tokens t)) with
  | some t => rfl
  | none =>
    dsimp only
    split
    · rfl
    · split
      · rename_i g2 e heq
        have h2 := check_range_fst hb t1 t2 none
        rw [heq] at h2
        have h2' : g2 = g := h2
        rw [h2']
      · rename_i g2 heq
        have h2 := check_range_fst hb t1 t2 none
        rw [heq] at h2
        have h2' : g2 = g := h2
        rw [h2']
        exact shoot_execute_jury g t1 t2

theorem heal_command_jury {g : Game} (n : Nat) (hb : g.board_size = some n)
    (token : String) :
    (heal_self_command g token).1.jury = g.jury := by
  unfold heal_self_command
  rw [check_tokens_exist_eq hb]
  cases hf : [token].find? (fun t => !(dict_contains g.tokens t)) with
  | some t => rfl
  | none =>
    dsimp only
    split
    · rfl
    · split
      · rfl
      · exact heal_execute_jury g token

theorem upgrade_command_jury {g : Game} (n : Nat) (hb : g.board_size = some n)
    (token : String) :
    (upgrade_token_command g token).1.jury = g.jury := by
  unfold upgrade_token_command
  rw [check_tokens_exist_eq hb]
  cases hf : [token].find? (fun t => !(dict_contains g.tokens t)) with
  | some t => rfl
  | none =>
    dsimp only
    split
    · rfl
    · exact upgrade_execute_jury g token

theorem add_token_command_jury (g : Game) (token owner : String) :
    (add_token_command g token owner).1.jury = g.jury := by
  unfold add_token_command
  split
  · rfl
  · split
    · rfl
    · split
      · rfl
      · dsimp only
        split
        · rfl
        · split
          · rename_i g3 e heq
            have := set_random_token_position_jury heq
            exact this
          · rename_i g3 msg heq
            have := set_random_token_position_jury heq
            exact this

theorem add_player_command_jury (g : Game) (p : String) :
    (add_player_command g p).1.jury = g.jury := by
  unfold add_player_command
  split
  · rfl
  · dsimp only
    exact set_random_seed_jury { g with players := dict_set g.players p [] } none

theorem seed_command_jury (g : Game) (s : Option Int) :
    (set_random_seed_command g s).1.jury = g.jury := by
  unfold set_random_seed_command
  exact set_random_seed_jury g s

theorem get_owner_modify {g : Game} (d : List (String × Token)) (k t : String)
    (f : Token → Token) (hf : ∀ i, (f i).owner = i.owner) :
    get_owner { g with tokens := dict_modify d k f } t =
    get_owner { g with tokens := d } t := by
  unfold get_owner
  dsimp only
  rw [dict_get_modify]
  by_cases hk : (t == k) = true
  · rw [if_pos hk]
    cases dict_get d t with
    | none => rfl
    | some i =>
      dsimp only [Option.map]
      rw [hf]
  · rw [if_neg hk]

theorem gift_heart_execute_jury {g g5 : Game} {t1 t2 msg : String}
    (h : gift_heart_execute g t1 t2 = (g5, Except.ok msg)) :
    g5.jury = dict_del g.jury (get_owner g t2) := by
  have hlife2 : ∀ (d : List (String × Token)) (k t : String),
      get_owner { g with tokens := dict_modify d k (fun i => { i with life := i.life + 1 }) } t =
      get_owner { g with tokens := d } t :=
    fun d k t => get_owner_modify d k t _ (fun i => rfl)
  have hlife1 : ∀ (d : List (String × Token)) (k t : String),
      get_owner { g with tokens := dict_modify d k (fun i => { i with life := i.life - 1 }) } t =
      get_owner { g with tokens := d } t :=
    fun d k t => get_owner_modify d k t _ (fun i => rfl)
  have hap : ∀ (d : List (String × Token)) (k t : String),
      get_owner { g with tokens := dict_modify d k (fun i => { i with AP := i.AP - g.gift_heart_cost }) } t =
      get_owner { g with tokens := d } t :=
    fun d k t => get_owner_modify d k t _ (fun i => rfl)
  unfold gift_heart_execute at h
  dsimp only at h
  split at h
  · simp at h
  · rename_i g1 heq
    have hg1 : g1 = { g with tokens := dict_modify g.tokens t1 (fun i => { i with AP := i.AP - g.gift_heart_cost }) } := by
      unfold spend_ap at heq
      split at heq
      · simp at heq
      · split at heq
        · simp at heq
        · simp only [Prod.mk.injEq] at heq
          exact heq.1.symm
    subst hg1
    dsimp only at h
    split at h
    · simp at h
    · rename_i g5' heq2
      simp only [Prod.mk.injEq] at h
      obtain ⟨h1, -⟩ := h
      subst h1
      have hj := update_priority_jury heq2
      rw [hj]
      split
      · rename_i hcond
        dsimp only
        rw [hlife2, hlife1, hap]
      · rename_i hcond
        rw [hlife2, hlife1, hap] at hcond
        rw [Bool.not_eq_true] at hcond
        rw [dict_del_not_contains _ _ hcond]

theorem gift_heart_command_jury_success {g : Game} (n : Nat) (hb : g.board_size = some n)
    {t1 t2 msg : String}
    (hok : (gift_heart_command g t1 t2).2 = Except.ok msg) :
    (gift_heart_command g t1 t2).1.jury = dict_del g.jury (get_owner g t2) := by
  unfold gift_heart_command at hok ⊢
  rw [check_tokens_exist_eq hb] at hok ⊢
  cases hf : [t1, t2].find? (fun t => !(dict_contains g.tokens t)) with
  | some t =>
    rw [hf] at hok
    simp at hok
  | none =>
    rw [hf] at hok
    dsimp only at hok ⊢
    cases hap : check_has_ap g t1 g.gift_heart_cost with
    | some e =>
      rw [hap] at hok
      simp at hok
    | none =>
      rw [hap] at hok
      dsimp only at hok ⊢
      rcases hcr : check_range g t1 t2 (some 1) with ⟨g2, o2⟩
      rw [hcr] at hok
      have h2 := check_range_fst hb t1 t2 (some 1)
      rw [hcr] at h2
      have h2' : g2 = g := h2
      rw [h2'] at hok ⊢
      cases o2 with
      | some e =>
        simp at hok
      | none =>
        dsimp only at hok ⊢
        cases hl1 : check_life_cap g t1 (-1) with
        | some e =>
          rw [hl1] at hok
          simp at hok
        | none =>
          rw [hl1] at hok
          dsimp only at hok ⊢
          cases hl2 : check_life_cap g t2 1 with
          | some e =>
            rw [hl2] at hok
            simp at hok
          | none =>
            rw [hl2] at hok
            dsimp only at hok ⊢
            rcases hge : gift_heart_execute g t1 t2 with ⟨g5, r5⟩
            rw [hge] at hok
            dsimp only at hok
            subst hok
            exact gift_heart_execute_jury hge

/-- C6 (amended): the jury table is a frame for almost every operation: on a
sized board, move, gift, shoot, heal, upgrade, next_turn, TOKEN, PLAYER,
RANDOM_SEED and BOARD_SIZE leave the jury exactly unchanged — in particular
a player who regains a living token through TOKEN registration keeps their
stale jury entry, which refutes the original claim (c6_counterexample).
The only removal the code ever performs is the gift-heart revival: a
successful gift_heart deletes exactly the entry of the revived token's
owner. -/
theorem c6_jury_frame (g : Game) (n : Nat) (hb : g.board_size = some n) :
    (∀ token dx dy, (move_command g token dx dy).1.jury = g.jury) ∧
    (∀ t1 t2 np, (gift_command g t1 t2 np).1.jury = g.jury) ∧
    (∀ t1 t2, (shoot_command g t1 t2).1.jury = g.jury) ∧
    (∀ token, (heal_self_command g token).1.jury = g.jury) ∧
    (∀ token, (upgrade_token_command g token).1.jury = g.jury) ∧
    (give_ap_to_all_command g).1.jury = g.jury ∧
    (∀ token owner, (add_token_command g token owner).1.jury = g.jury) ∧
    (∀ p, (add_player_command g p).1.jury = g.jury) ∧
    (∀ s, (set_random_seed_command g s).1.jury = g.jury) ∧
    (∀ s lock, (set_board_size_command g s lock).1.jury = g.jury) ∧
    (∀ t1 t2 msg, (gift_heart_command g t1 t2).2 = Except.ok msg →
      (gift_heart_command g t1 t2).1.jury = dict_del g.jury (get_owner g t2)) :=
  ⟨move_command_jury n hb,
   gift_command_jury n hb,
   shoot_command_jury n hb,
   heal_command_jury n hb,
   upgrade_command_jury n hb,
   next_turn_jury n hb,
   add_token_command_jury g,
   add_player_command_jury g,
   seed_command_jury g,
   fun s lock => board_size_command_jury g s lock,
   fun t1 t2 msg hok => gift_heart_command_jury_success n hb hok⟩

/-- Witness for the amended C6 theorem: adding living token B to the
eliminated, jury-sitting player b leaves the stale jury entry in place. -/
theorem c6_jury_frame_witness :
    game_jury_vote.board_size = some 5 ∧
    (add_token_command game_jury_vote "B" "b").1.jury = game_jury_vote.jury :=
  ⟨by decide,
    (c6_jury_frame game_jury_vote 5 (by decide)).2.2.2.2.2.2.1 "B" "b"⟩

theorem upgrade_execute_success {g : Game} {token : String} {info : Token}
    (hget : dict_get g.tokens token = some info)
    (hcost : 0 ≤ g.upgrade_cost) (hap : g.upgrade_cost ≤ info.AP)
    (hlife0 : 0 ≤ info.life) (hlife1 : info.life ≤ info.life_cap)
    (hpri : g.priority.contains info.owner = true) :
    (upgrade_execute g token).2 = Except.ok (token ++ " upgraded") ∧
    dict_get (upgrade_execute g token).1.tokens token =
      some { owner := info.owner, position := info.position,
             AP := info.AP - g.upgrade_cost, life := info.life + 1,
             life_cap := info.life_cap + 1, range := info.range + 1 } := by
  unfold upgrade_execute
  rw [spend_ap_ok hget hcost hap]
  dsimp only
  set G1 : Game := { g with tokens := dict_modify g.tokens token (fun i => { i with AP := i.AP - g.upgrade_cost }) } with hG1
  have h1 : dict_get G1.tokens token = some { info with AP := info.AP - g.upgrade_cost } := by
    rw [hG1]
    dsimp only
    rw [dict_get_modify_self, hget]
    rfl
  unfold increase_life_cap
  set G2 : Game := { G1 with tokens := dict_modify G1.tokens token (fun i => { i with life_cap := i.life_cap + 1 }) } with hG2
  have h2 : dict_get G2.tokens token = some { info with AP := info.AP - g.upgrade_cost, life_cap := info.life_cap + 1 } := by
    rw [hG2]
    dsimp only
    rw [dict_get_modify_self, h1]
    rfl
  rw [increase_life_ok h2 (by first | omega | (dsimp only; omega)) (by first | omega | (dsimp only; omega))]
  dsimp only
  set G3 : Game := { G2 with tokens := dict_modify G2.tokens token (fun i => { i with life := i.life + 1 }) } with hG3
  have h3 : dict_get G3.tokens token = some { info with AP := info.AP - g.upgrade_cost, life_cap := info.life_cap + 1, life := info.life + 1 } := by
    rw [hG3]
    dsimp only
    rw [dict_get_modify_self, h2]
    rfl
  unfold increase_range
  set G4 : Game := { G3 with tokens := dict_modify G3.tokens token (fun i => { i with range := i.range + 1 }) } with hG4
  have h4 : dict_get G4.tokens token = some { info with AP := info.AP - g.upgrade_cost, life_cap := info.life_cap + 1, life := info.life + 1, range := info.range + 1 } := by
    rw [hG4]
    dsimp only
    rw [dict_get_modify_self, h3]
    rfl
  rw [get_owner_eq h4]
  have hpri4 : G4.priority.contains info.owner = true := by
    rw [hG4, hG3, hG2, hG1]
    exact hpri
  rw [update_priority_ok hpri4]
  exact ⟨rfl, h4⟩

/-- C7: for an existing token whose AP covers the (nonnegative) upgrade cost,
with a well-formed life (0 ≤ life ≤ life_cap) and its owner registered in the
priority list, the upgrade succeeds as one unit on a sized board: it spends
exactly upgrade_cost AP and raises life_cap, life and range by exactly one
each — in particular it succeeds when life equals the old cap, the new life
being checked against the already-raised cap. -/
theorem c7_upgrade (g : Game) (n : Nat) (token : String) (info : Token)
    (hb : g.board_size = some n)
    (hget : dict_get g.tokens token = some info)
    (hap : g.upgrade_cost ≤ info.AP)
    (hcost : 0 ≤ g.upgrade_cost)
    (hlife0 : 0 ≤ info.life) (hlifecap : info.life ≤ info.life_cap)
    (hpri : g.priority.contains info.owner = true) :
    (upgrade_token_command g token).2 = Except.ok (token ++ " upgraded") ∧
    dict_get (upgrade_token_command g token).1.tokens token =
      some { owner := info.owner, position := info.position,
             AP := info.AP - g.upgrade_cost, life := info.life + 1,
             life_cap := info.life_cap + 1, range := info.range + 1 } := by
  unfold upgrade_token_command
  rw [check_tokens_exist_eq hb]
  have hfind : [token].find? (fun t => !(dict_contains g.tokens t)) = none := by
    rw [List.find?_eq_none]
    intro x hx
    rw [List.mem_singleton] at hx
    subst hx
    rw [dict_get_contains hget]
    simp
  rw [hfind]
  dsimp only
  rw [check_has_ap_eq_none hget hap]
  exact upgrade_execute_success hget hcost hap hlife0 hlifecap hpri

/-- Witness for C7: token U sits at life = life_cap = 3 with 6 AP; the
upgrade succeeds and U ends at AP 1, life 4, cap 4, range 3. -/
theorem c7_upgrade_witness :
    dict_get game_full_life.tokens "U" = some (mk_token "a" (0, 0) 6 3) ∧
    (upgrade_token_command game_full_life "U").2 = Except.ok ("U" ++ " upgraded") :=
  ⟨by decide,
    (c7_upgrade game_full_life 5 "U" (mk_token "a" (0, 0) 6 3) (by decide) (by decide)
      (by decide) (by decide) (by decide) (by decide) (by decide)).1⟩

theorem dict_get_map_snd {α β : Type} (f : α → β) :
    ∀ (d : List (String × α)) (k : String),
    dict_get (d.map (fun q => (q.1, f q.2))) k = (dict_get d k).map f := by
  intro d
  induction d with
  | nil => intro k; rfl
  | cons q d ih =>
    intro k
    rw [List.map_cons]
    unfold dict_get
    try dsimp only
    by_cases hk : (q.1 == k) = true
    · rw [if_pos hk, if_pos hk]
      rfl
    · rw [if_neg hk, if_neg hk]
      exact ih k

/-- C10: a player with no owned token on the board is vacuously eliminated,
so on a sized board with an empty jury they may immediately vote for any
living token; the vote succeeds, writes the (player, token) jury entry, and
the very next next_turn awards the voted token 2 AP: the regular living-token
point plus the jury bonus point. -/
theorem c10_vacuous_elimination_vote (g : Game) (n : Nat) (t : Int) (p tok : String)
    (info : Token)
    (hb : g.board_size = some n) (ht : g.turn_counter = some t)
    (hjury : g.jury = [])
    (hnoown : ∀ q ∈ g.tokens, (q.2.owner == p) = false)
    (hget : dict_get g.tokens tok = some info)
    (halive : 0 < info.life)
    (hpri : g.priority.contains p = true) :
    is_player_eliminated g p = true ∧
    (jury_vote_command g p (some tok)).2 = Except.ok (p ++ " is now voting") ∧
    (jury_vote_command g p (some tok)).1.jury = dict_set g.jury p tok ∧
    get_ap (give_ap_to_all_command ((jury_vote_command g p (some tok)).1)).1 tok =
      get_ap g tok + 2 := by
  have helim : is_player_eliminated g p = true := by
    unfold is_player_eliminated
    have hany : g.tokens.any (fun q => q.2.owner == p && q.2.life > 0) = false := by
      rw [List.any_eq_false]
      intro q hq
      rw [hnoown q hq]
      simp
    rw [hany]
    rfl
  have hcontains : dict_contains g.tokens tok = true := dict_get_contains hget
  have hres : jury_vote_command g p (some tok) =
      ({ g with jury := dict_set g.jury p tok, priority := g.priority.erase p ++ [p] },
       Except.ok (p ++ " is now voting")) := by
    unfold jury_vote_command
    rw [if_neg (by simp [helim])]
    rw [force_sized hb]
    dsimp only
    rw [if_neg (by simp [hcontains])]
    rw [if_neg (by rw [get_life_eq hget]; simp only [beq_iff_eq]; omega)]
    unfold vote_execute
    dsimp only
    have hpri2 : ({ g with jury := dict_set g.jury p tok } : Game).priority.contains p = true := hpri
    rw [update_priority_ok hpri2]
  have hne : g.tokens.isEmpty = false := by
    cases hv : g.tokens with
    | nil => rw [hv] at hget; simp [dict_get] at hget
    | cons q l => rfl
  refine ⟨helim, ?_, ?_, ?_⟩
  · rw [hres]
  · rw [hres]
  · rw [hres]
    unfold give_ap_to_all_command
    dsimp only
    rw [if_neg (by rw [hne]; simp)]
    have hb2 : ({ g with jury := dict_set g.jury p tok, priority := g.priority.erase p ++ [p] } : Game).board_size = some n := hb
    rw [force_sized hb2]
    dsimp only
    rw [ht]
    dsimp only
    rw [hjury]
    rw [show dict_set ([] : List (String × String)) p tok = [(p, tok)] from rfl]
    rw [show sort_strings ([(p, tok)].map (fun q => q.1)) = [p] from rfl]
    unfold apply_jury_bonus
    dsimp only
    rw [show dict_get [(p, tok)] p = some tok from by simp [dict_get]]
    dsimp only
    rw [dict_get_map_snd bump_living, hget]
    dsimp only [Option.map]
    have hbl : bump_living info = { info with AP := info.AP + 1 } := by
      unfold bump_living
      rw [if_pos (by omega)]
    rw [hbl]
    dsimp only
    rw [if_pos (by first | omega | (dsimp only; omega))]
    have hnil : ∀ h : Game, apply_jury_bonus h [] = h := fun h => rfl
    rw [hnil]
    unfold get_ap
    dsimp only
    rw [dict_get_set]
    rw [if_pos (show (tok == tok) = true by simp)]
    rw [hget]
    dsimp only
    omega

/-- Witness for C10: the tokenless player b votes for living token A in a
concrete state; b is eliminated, the vote is accepted, and A gains 2 AP on
the following next_turn. -/
theorem c10_vacuous_elimination_vote_witness :
    is_player_eliminated game_fresh_voter "b" = true ∧
    get_ap (give_ap_to_all_command
        ((jury_vote_command game_fresh_voter "b" (some "A")).1)).1 "A" =
      get_ap game_fresh_voter "A" + 2 :=
  ⟨(c10_vacuous_elimination_vote game_fresh_voter 5 1 "b" "A" (mk_token "a" (0, 0) 0 3)
      (by decide) (by decide) (by decide) (by decide) (by decide) (by decide)
      (by decide)).1,
   (c10_vacuous_elimination_vote game_fresh_voter 5 1 "b" "A" (mk_token "a" (0, 0) 0 3)
      (by decide) (by decide) (by decide) (by decide) (by decide) (by decide)
      (by decide)).2.2.2⟩
